import Mathlib

/-!
Verification development for the crossrefXML reference segmentation and
DOI normalization engine (`parsing_helpers.py`, `doiref.py`).

Each Python function relevant to the frozen claims is shallowly embedded as
an executable Lean definition over `List Char` / `String`.  Python regexes
are transliterated into explicit character-level matchers; every matcher
carries a doc comment quoting the regex it embeds.  Functions that recurse
on non-structural suffixes take an explicit fuel argument (instantiated
with the input length at the wrapper), so that every definition reduces in
the kernel and concrete claims can be settled by `decide`.

Python semantics notes applying throughout:
  - `str.strip`/`rstrip`/`lstrip` strip whitespace; we model Python's
    whitespace class with ASCII whitespace plus NBSP (all evaluated inputs
    in this development are ASCII).
  - A regex `X.match(s)`/`X.search(s)` used as a boolean is embedded as a
    Bool-valued matcher; regex `sub` is embedded as a left-to-right scan
    replacing each leftmost match, exactly as `re.sub` does.
-/

namespace Crx

abbrev Cs := List Char

def csOf (s : String) : Cs := s.data

def strOf (cs : Cs) : String := String.mk cs

/-- Python whitespace class for `\s`, `str.strip` etc.  ASCII whitespace
plus the no-break space; all strings evaluated in this file are ASCII. -/
def isPySpace (c : Char) : Bool :=
  c == ' ' || c == '\t' || c == '\n' || c == '\r' || c == '\x0b' || c == '\x0c' ||
  c == ' '

def isDigitC (c : Char) : Bool := '0' ≤ c && c ≤ '9'

def isAsciiUpperC (c : Char) : Bool := 'A' ≤ c && c ≤ 'Z'

def isAsciiLowerC (c : Char) : Bool := 'a' ≤ c && c ≤ 'z'

def isAsciiAlphaC (c : Char) : Bool := isAsciiUpperC c || isAsciiLowerC c

/-- Lower-casing for the case-insensitive regexes; ASCII plus the specific
non-ASCII uppercase letters appearing in the Python patterns. -/
def lowC (c : Char) : Char :=
  if isAsciiUpperC c then Char.ofNat (c.toNat + 32)
  else if c == 'Å' then 'å' else if c == 'Ä' then 'ä' else if c == 'Ö' then 'ö'
  else if c == 'Ü' then 'ü' else if c == 'É' then 'é' else if c == 'Ñ' then 'ñ'
  else if c == 'Ç' then 'ç' else if c == 'Ş' then 'ş' else if c == 'Ž' then 'ž'
  else if c == 'Š' then 'š' else if c == 'Đ' then 'đ' else if c == 'Ć' then 'ć'
  else if c == 'Č' then 'č' else if c == 'Ł' then 'ł' else if c == 'Ó' then 'ó'
  else if c == 'Ś' then 'ś' else if c == 'Ź' then 'ź' else if c == 'Ż' then 'ż'
  else if c == 'Á' then 'á' else if c == 'Ø' then 'ø' else if c == 'Í' then 'í'
  else if c == 'Ú' then 'ú' else if c == 'È' then 'è' else if c == 'Æ' then 'æ'
  else if c == 'Ô' then 'ô'
  else c

/-- Word character for `\b` and `\w`: ASCII alphanumerics, underscore, and
the non-ASCII letters used by the pattern library. -/
def isWordC (c : Char) : Bool :=
  isAsciiAlphaC c || isDigitC c || c == '_' || lowC c != c ||
  ("åäöüéñçşžšđćčłóśźżáøíúèæô".data.any (fun d => d == c))

def lstripC (cs : Cs) : Cs := cs.dropWhile isPySpace

def rstripC (cs : Cs) : Cs := (cs.reverse.dropWhile isPySpace).reverse

def stripC (cs : Cs) : Cs := rstripC (lstripC cs)

def pyStrip (s : String) : String := strOf (stripC (csOf s))

def pyLstrip (s : String) : String := strOf (lstripC (csOf s))

def pyRstrip (s : String) : String := strOf (rstripC (csOf s))

/-- Python `str.rstrip(set)`: drop trailing characters belonging to `set`. -/
def rstripSet (set : Cs) (cs : Cs) : Cs :=
  (cs.reverse.dropWhile (fun c => set.any (fun d => d == c))).reverse

/-- Python `str.lstrip(set)`. -/
def lstripSet (set : Cs) (cs : Cs) : Cs :=
  cs.dropWhile (fun c => set.any (fun d => d == c))

def hasWsC (cs : Cs) : Bool := cs.any isPySpace

def countC (c : Char) (cs : Cs) : Nat := (cs.filter (fun d => d == c)).length

/-- Consume the literal `lit` case-sensitively; `none` when absent. -/
def eatStr : Cs → Cs → Option Cs
  | [], cs => some cs
  | _ :: _, [] => none
  | l :: ls, c :: cs => if c == l then eatStr ls cs else none

/-- Consume the literal `lit` case-insensitively (Python `re.I`). -/
def eatStrCI : Cs → Cs → Option Cs
  | [], cs => some cs
  | _ :: _, [] => none
  | l :: ls, c :: cs => if lowC c == lowC l then eatStrCI ls cs else none

/-- Consume one character satisfying `p`. -/
def eatCh (p : Char → Bool) : Cs → Option Cs
  | [] => none
  | c :: cs => if p c then some cs else none

/-- Greedily consume a (possibly empty) run of characters satisfying `p`. -/
def eatRun (p : Char → Bool) (cs : Cs) : Cs := cs.dropWhile p

/-- Greedily consume a run of length at least one; `none` if the first
character does not satisfy `p`. -/
def eatRun1 (p : Char → Bool) : Cs → Option Cs
  | [] => none
  | c :: cs => if p c then some (eatRun p cs) else none

/-- Split off the maximal run satisfying `p` (regex greedy `p*` with the
matched text returned). -/
def spanRun (p : Char → Bool) (cs : Cs) : Cs × Cs := (cs.takeWhile p, cs.dropWhile p)

def optEat (f : Cs → Option Cs) (cs : Cs) : Cs :=
  match f cs with
  | some rest => rest
  | none => cs

/-! ### Government-report markers (`parsing_helpers.py` lines 6-35)

`prop_start_re = (?i)^\s*(?:Prop\.|Proposition)\s*\(?(?:19\d{2}|20(?:0\d|1\d|2\d|30))/\d{2}:\d{1,3}\)?`
`sou_start_re  = (?i)^\s*SOU[:\s]+\(?YEAR:\d{1,3}\)?`
`sfs_start_re  = (?i)^\s*SFS[:\s]+\(?YEAR:\d{1,4}\)?`
`ds_start_re   = (?i)^\s*Ds[:\s]+\(?YEAR:\d{1,3}\)?`
with `YEAR = (?:19\d{2}|20(?:0\d|1\d|2\d|30))`. -/

/-- Matcher for `(?:19\d{2}|20(?:0\d|1\d|2\d|30))`. -/
def eatYearSimple : Cs → Option Cs
  | '1' :: '9' :: a :: b :: rest =>
      if isDigitC a && isDigitC b then some rest else none
  | '2' :: '0' :: a :: b :: rest =>
      if (a == '0' || a == '1' || a == '2') && isDigitC b then some rest
      else if a == '3' && b == '0' then some rest else none
  | _ => none

/-- Tail common to the SOU/SFS/Ds markers: `[:\s]+\(?YEAR:\d{1,n}\)?`;
`maxSerial` is unused for the boolean result (one digit suffices for a
match to exist), kept for transparency against `\d{1,3}` and `\d{1,4}`. -/
def eatSouTail (cs : Cs) : Bool :=
  match eatRun1 (fun c => c == ':' || isPySpace c) cs with
  | none => false
  | some r1 =>
    let r2 := optEat (eatCh (fun c => c == '(')) r1
    match eatYearSimple r2 with
    | none => false
    | some r3 =>
      match r3 with
      | ':' :: r4 => (eatRun1 isDigitC r4).isSome
      | _ => false

/-- Embeds `prop_start_re.match`: after the marker, `\s*\(?YEAR/\d{2}:\d{1,3}\)?`. -/
def eatPropTail (cs : Cs) : Bool :=
  let r1 := eatRun isPySpace cs
  let r2 := optEat (eatCh (fun c => c == '(')) r1
  match eatYearSimple r2 with
  | none => false
  | some r3 =>
    match r3 with
    | '/' :: a :: b :: ':' :: r4 =>
        isDigitC a && isDigitC b && (eatRun1 isDigitC r4).isSome
    | _ => false

/-- Embeds `starts_with_prop_or_sou` (`parsing_helpers.py:18`): true when
the line begins (after optional whitespace, case-insensitively) with a
Prop./Proposition, SOU, SFS or Ds marker. -/
def starts_with_prop_or_sou (s : String) : Bool :=
  let cs := eatRun isPySpace (csOf s)
  (match eatStrCI (csOf "prop.") cs with
   | some r => eatPropTail r
   | none => false) ||
  (match eatStrCI (csOf "proposition") cs with
   | some r => eatPropTail r
   | none => false) ||
  (match eatStrCI (csOf "sou") cs with
   | some r => eatSouTail r
   | none => false) ||
  (match eatStrCI (csOf "sfs") cs with
   | some r => eatSouTail r
   | none => false) ||
  (match eatStrCI (csOf "ds") cs with
   | some r => eatSouTail r
   | none => false)

/-! ### Single-token join pass (`doiref.py` lines 707-747)

Inside the author-year path, after the year-end pre-append, any physical
line other than the first whose stripped form is non-empty and contains no
whitespace (`not re.search(r'\s', stripped_ln)`) is attached to the
previous output line: `new_join[-1] = new_join[-1].rstrip() + ' ' + stripped_ln`.
The pass is iterated until no change or `DOIREF_JOIN_SHORT_MAX_ITER`
(default 10) iterations. -/

def jstGo : Nat → Bool → List String → Bool → List String → List String × Bool
  | _, _, accRev, changed, [] => (accRev.reverse, changed)
  | 0, _, accRev, changed, rest => ((accRev.reverse) ++ rest, changed)
  | fuel + 1, isFirst, accRev, changed, ln :: rest =>
    let st := pyStrip ln
    if !isFirst && st != "" && !hasWsC (csOf st) then
      match accRev with
      | prev :: tl => jstGo fuel false ((pyRstrip prev ++ " " ++ st) :: tl) true rest
      | [] => jstGo fuel false (ln :: accRev) changed rest
    else jstGo fuel false (ln :: accRev) changed rest

/-- One iteration of the single-token join pass. -/
def joinShortSingleTokenStep (lines : List String) : List String × Bool :=
  jstGo (lines.length + 1) true [] false lines

/-- The iterated single-token join pass with its iteration cap (default 10). -/
def joinShortSingleToken : Nat → List String → List String
  | 0, lines => lines
  | fuel + 1, lines =>
    let (out, changed) := joinShortSingleTokenStep lines
    if !changed || fuel == 0 then out else joinShortSingleToken fuel out

/-! ### Conjunction (ampersand) merge pass (`doiref.py` lines 783-819) and
`line_ends_with_conjunction` (`parsing_helpers.py:187`). -/

/-- Embeds `line_ends_with_conjunction`: true exactly when the rstripped
line is non-empty and literally ends with an ampersand (`re.search(r'&$', t)`). -/
def line_ends_with_conjunction (s : String) : Bool :=
  match (csOf (pyRstrip s)).reverse with
  | [] => false
  | c :: _ => c == '&'

def mergedAmpGo : Nat → List String → List String
  | _, [] => []
  | 0, lines => lines
  | fuel + 1, ln :: rest =>
    if line_ends_with_conjunction ln then
      match rest.dropWhile (fun l => pyStrip l == "") with
      | [] => ln :: mergedAmpGo fuel rest
      | nxt :: rest3 =>
        if starts_with_prop_or_sou (pyLstrip nxt) then ln :: mergedAmpGo fuel rest
        else (pyRstrip ln ++ " " ++ pyLstrip nxt) :: mergedAmpGo fuel rest3
    else ln :: mergedAmpGo fuel rest

/-- Embeds the ampersand merge pass of `doiref.py`: a line for which
`line_ends_with_conjunction` holds is joined with the following non-empty
line, unless that line starts with a Prop./SOU marker. -/
def mergedAmpPass (lines : List String) : List String :=
  mergedAmpGo (lines.length + 1) lines

/-! ### Numbered-list detection and joining pass (`doiref.py` lines 343-543)

Detection regexes:
`re_bracket = ^\[\s*\d{1,3}\.??\s*\]`, `re_paren = ^\(\s*\d{1,3}\.??\s*\)`,
`re_bare = ^\d{1,3}\.\s*`.  The active numbered pattern additionally
consumes trailing whitespace (`...\]\s*` resp. `^\d{1,3}\.\s*`).

For the optional lazy dot `\.??` both consuming and skipping the dot are
mutually exclusive continuations (the next required character is `]`/`)`
versus `.`), so a deterministic conditional consume is an exact embedding.
A digit run longer than 3 can never back off to a match because the
character following the consumed digits would again be a digit. -/

def eatBracketLikeCore (openC closeC : Char) (cs : Cs) : Option Cs :=
  match cs with
  | c :: r =>
    if c == openC then
      let r1 := eatRun isPySpace r
      let (ds, r2) := spanRun isDigitC r1
      if ds.length < 1 || 3 < ds.length then none
      else
        let r3 := optEat (eatCh (fun c => c == '.')) r2
        let r4 := eatRun isPySpace r3
        match r4 with
        | c2 :: r5 => if c2 == closeC then some r5 else none
        | [] => none
    else none
  | [] => none

/-- Boolean `re_bracket.match`. -/
def reBracketMatch (s : String) : Bool := (eatBracketLikeCore '[' ']' (csOf s)).isSome

/-- Boolean `re_paren.match`. -/
def reParenMatch (s : String) : Bool := (eatBracketLikeCore '(' ')' (csOf s)).isSome

/-- Boolean `re_bare.match` (`^\d{1,3}\.\s*`). -/
def reBareMatch (s : String) : Bool :=
  let (ds, r) := spanRun isDigitC (csOf s)
  if ds.length < 1 || 3 < ds.length then false
  else match r with
    | '.' :: _ => true
    | _ => false

/-- The active bracket numbered pattern `^\[\s*\d{1,3}\.??\s*\]\s*`:
returns the remainder after the match (used both for `match` and for
`sub('', ln, count=1)`). -/
def eatBracketPat (cs : Cs) : Option Cs :=
  (eatBracketLikeCore '[' ']' cs).map (eatRun isPySpace)

/-- The active parenthesized numbered pattern `^\(\s*\d{1,3}\.??\s*\)\s*`. -/
def eatParenPat (cs : Cs) : Option Cs :=
  (eatBracketLikeCore '(' ')' cs).map (eatRun isPySpace)

/-- The active bare numbered pattern `^\d{1,3}\.\s*`. -/
def eatBarePat (cs : Cs) : Option Cs :=
  let (ds, r) := spanRun isDigitC cs
  if ds.length < 1 || 3 < ds.length then none
  else match r with
    | '.' :: r2 => some (eatRun isPySpace r2)
    | _ => none

def bracketCount (lines : List String) : Nat := (lines.filter reBracketMatch).length

def parenCount (lines : List String) : Nat := (lines.filter reParenMatch).length

def bareCount (lines : List String) : Nat := (lines.filter reBareMatch).length

inductive NumStyle | bracket | paren | bare
deriving DecidableEq, Repr

/-- Embeds the numbered-style selection of `doiref.py` lines 357-376:
bracket wins at count ≥ 15, else paren at ≥ 15, else bare at ≥ 10
(≥ 30 when `--until-eof`); otherwise no numbered style. -/
def detectNumberedStyle (lines : List String) (untilEof : Bool) : Option NumStyle :=
  if bracketCount lines ≥ 15 then some NumStyle.bracket
  else if parenCount lines ≥ 15 then some NumStyle.paren
  else
    let bareThreshold := if untilEof then 30 else 10
    if bareCount lines ≥ bareThreshold then some NumStyle.bare
    else none

def digitsToNat (ds : Cs) : Nat :=
  ds.foldl (fun acc c => acc * 10 + (c.toNat - '0'.toNat)) 0

/-- Embeds `re.search(r'\d{1,3}', ln)` followed by `int(...)`: the value of
the first run of digits, truncated to at most three digits. -/
def firstNum3 : Cs → Option Nat
  | [] => none
  | c :: cs =>
    if isDigitC c then
      some (digitsToNat ((c :: cs).takeWhile isDigitC |>.take 3))
    else firstNum3 cs

/-- Embeds `one_numbered_pass` (`doiref.py` lines 466-501), parameterized by
the active numbered pattern `pat`.  `outRev` is the accumulated output in
reverse; `curr`/`currNum` mirror the Python locals `curr` and
`curr_number`. -/
def onpGo (pat : Cs → Option Cs) :
    List String → Option String → Option Nat → List String → List String
  | outRev, curr, _, [] =>
    (match curr with | some c => c :: outRev | none => outRev).reverse
  | outRev, curr, currNum, ln :: rest =>
    match pat (csOf ln) with
    | some patRest =>
      let thisNum := firstNum3 (csOf ln)
      let stubCase :=
        match curr, currNum with
        | some _, some _ => pyStrip (strOf patRest) == ""
        | _, _ => false
      if stubCase then
        match curr, currNum, thisNum with
        | some c, some cn, some tn =>
          if tn == cn + 1 then onpGo pat (c :: outRev) (some ln) (some tn) rest
          else onpGo pat outRev (some (pyRstrip c ++ " " ++ pyLstrip ln)) currNum rest
        | some c, some _, none =>
          onpGo pat outRev (some (pyRstrip c ++ " " ++ pyLstrip ln)) currNum rest
        | _, _, _ => onpGo pat outRev curr currNum rest
      else
        match curr with
        | some c => onpGo pat (c :: outRev) (some ln) thisNum rest
        | none => onpGo pat outRev (some ln) thisNum rest
    | none =>
      match curr with
      | none => onpGo pat outRev (some ln) none rest
      | some c =>
        if starts_with_prop_or_sou (pyLstrip ln) then
          onpGo pat (c :: outRev) (some ln) none rest
        else onpGo pat outRev (some (pyRstrip c ++ " " ++ pyLstrip ln)) currNum rest

def one_numbered_pass (pat : Cs → Option Cs) (input : List String) : List String :=
  onpGo pat [] none none input

/-- The fixed-point loop around `one_numbered_pass` (cap `DOIREF_MAX_ITER`,
default 10). -/
def oneNumberedLoop (pat : Cs → Option Cs) : Nat → List String → List String
  | 0, lines => lines
  | fuel + 1, lines =>
    let new := one_numbered_pass pat lines
    if new == lines || fuel == 0 then new else oneNumberedLoop pat fuel new

/-- Number stripping on output (`number_prefix_re.sub('', ref, count=1)`
with `number_prefix_re = ^\s*\[\s*\d{1,3}\.??\s*\]\s*` for bracket style). -/
def stripBracketNum (s : String) : String :=
  match eatBracketPat (eatRun isPySpace (csOf s)) with
  | some rest => strOf rest
  | none => s

/-! ### References-section extraction (`parsing_helpers.py` lines 1560-1624)
and the fallback of `load_and_preprocess` (lines 1755-1781).

The heading regex is
`^\s*(?:(?:[1-9]|1[0-2])\.?\s{0,3})?(WORDS)\s*$` with `re.MULTILINE | re.IGNORECASE`,
where WORDS is the alternation of the references-heading words.  We match
it per line: a multiline match exists iff some physical line matches the
per-line pattern, because the heading word must be the last non-blank
content of its line and anything the leading `\s*`/`\s{0,3}` could consume
across a newline leaves a line that still matches on its own (the numeric
marker is optional). -/

def headingWords : List String :=
  ["references", "bibliography", "referenser", "works cited", "referenslista",
   "litteratur", "käll- och litteraturförteckning", "källförteckning",
   "litteraturförteckning", "bibliografi"]

/-- All remainders after optionally consuming the section marker
`(?:(?:[1-9]|1[0-2])\.?\s{0,3})?` (with backtracking over the optional dot
and the 0-3 whitespace characters). -/
def headingNumRests (cs : Cs) : List Cs :=
  let afterDigits : List Cs :=
    match cs with
    | '1' :: d :: r => if d == '0' || d == '1' || d == '2' then [d :: r, r] else [d :: r]
    | c :: r => if isDigitC c && c != '0' then [r] else []
    | [] => []
  let afterDot : List Cs :=
    afterDigits.flatMap (fun r =>
      match r with
      | '.' :: r2 => [r, r2]
      | _ => [r])
  let afterWs : List Cs :=
    afterDot.flatMap (fun r =>
      let r1 := match r with | c :: t => if isPySpace c then [t] else [] | [] => []
      let r2 := r1.flatMap (fun t =>
        match t with | c :: t2 => if isPySpace c then [t2] else [] | [] => [])
      let r3 := r2.flatMap (fun t =>
        match t with | c :: t2 => if isPySpace c then [t2] else [] | [] => [])
      r :: (r1 ++ r2 ++ r3))
  cs :: afterWs

/-- Per-line embedding of the references-heading regex. -/
def headingLineMatch (s : String) : Bool :=
  let cs := eatRun isPySpace (csOf s)
  (headingNumRests cs).any (fun r =>
    headingWords.any (fun w =>
      match eatStrCI (csOf w) r with
      | some rest => (eatRun isPySpace rest).isEmpty
      | none => false))

/-- Per-line embedding of the next-section heuristic
`^\s*[A-Z][A-Z\s\-]{5,}\s*$`. -/
def allcapsLine (s : String) : Bool :=
  match lstripC (csOf s) with
  | u :: rest =>
    isAsciiUpperC u && 5 ≤ rest.length &&
      rest.all (fun c => isAsciiUpperC c || isPySpace c || c == '-')
  | [] => false

/-- The form-feed canonicalization `full_text.replace('\f', '\n')`. -/
def ffToNl (s : String) : String :=
  strOf ((csOf s).map (fun c => if c == '\x0c' then '\n' else c))

/-- Split on newline characters (the line view of the multiline regex). -/
def splitNlGo : Cs → Cs → List Cs
  | acc, [] => [acc.reverse]
  | acc, '\n' :: rest => acc.reverse :: splitNlGo [] rest
  | acc, c :: rest => splitNlGo (c :: acc) rest

def textLines (s : String) : List String := (splitNlGo [] (csOf s)).map strOf

def joinLines (ls : List String) : String :=
  strOf (List.intercalate ['\n'] (ls.map csOf))

/-- First index (from `start`) of a line satisfying `p`. -/
def findLineIdx (p : String → Bool) : Nat → List String → Option Nat
  | _, [] => none
  | i, l :: ls => if p l then some i else findLineIdx p (i + 1) ls

/-- Embeds `extract_references_section` at line granularity.  The missing-
heading branches (`raise ValueError` / `return text`) are exact; when a
heading is found the section is rendered from whole lines starting at the
heading line (the character-level code moves `start_idx` back to the
beginning of the heading's line). -/
def extract_references_section (fullText : String)
    (untilEof requireHeading stopAtAllcaps : Bool) : Except String String :=
  let text := ffToNl fullText
  let ls := textLines text
  match findLineIdx headingLineMatch 0 ls with
  | none =>
    if requireHeading then Except.error "REFERENCES heading not found"
    else Except.ok text
  | some i =>
    let tail := ls.drop i
    if untilEof then Except.ok (joinLines tail)
    else if stopAtAllcaps then
      match findLineIdx allcapsLine 0 (ls.drop (i + 1)) with
      | some k => Except.ok (joinLines (tail.take (k + 1)))
      | none => Except.ok (joinLines tail)
    else Except.ok (joinLines tail)

/-- Embeds the section-selection step of `load_and_preprocess`
(lines 1755-1781): the `ValueError` raised by
`extract_references_section` is caught and the full text is used instead
("When heading not found, process the full text"). -/
def lpReferencesText (fullText : String)
    (untilEof stopAtAllcaps requireHeading : Bool) : String :=
  match extract_references_section fullText untilEof requireHeading stopAtAllcaps with
  | Except.ok t => t
  | Except.error _ => fullText

/-! ### A small matcher algebra for boolean regex tests

`Mx` maps an input suffix to the list of suffixes remaining after a match
of the embedded regex fragment; a regex `X.match(s)` used as a boolean is
`(mx s).isEmpty = false`.  This captures full backtracking existence
semantics; `uniqLens` removes duplicate remainders (remainders of a fixed
input are determined by their length), which is sound because matching is
a function of the remaining suffix only. -/

abbrev Mx := Cs → List Cs

def uniqLensGo : List Cs → List Nat → List Cs → List Cs
  | acc, _, [] => acc.reverse
  | acc, seen, l :: ls =>
    if seen.contains l.length then uniqLensGo acc seen ls
    else uniqLensGo (l :: acc) (l.length :: seen) ls

def uniqLens (ls : List Cs) : List Cs := uniqLensGo [] [] ls

def mEps : Mx := fun cs => [cs]

def mCh (p : Char → Bool) : Mx := fun cs =>
  match cs with
  | c :: r => if p c then [r] else []
  | [] => []

def mStr (lit : String) : Mx := fun cs =>
  match eatStr (csOf lit) cs with
  | some r => [r]
  | none => []

def mStrCI (lit : String) : Mx := fun cs =>
  match eatStrCI (csOf lit) cs with
  | some r => [r]
  | none => []

def mSeq (a b : Mx) : Mx := fun cs => uniqLens ((a cs).flatMap b)

def mAlt (a b : Mx) : Mx := fun cs => uniqLens (a cs ++ b cs)

def mAlts (ms : List Mx) : Mx := fun cs => uniqLens (ms.flatMap (fun m => m cs))

def mOpt (a : Mx) : Mx := mAlt a mEps

def mRepExact : Nat → Mx → Mx
  | 0, _ => mEps
  | n + 1, a => mSeq a (mRepExact n a)

def mRepUpTo : Nat → Mx → Mx
  | 0, _ => mEps
  | n + 1, a => mAlt (mSeq a (mRepUpTo n a)) mEps

/-- Regex `a{lo,hi}`. -/
def mRepRange (lo hi : Nat) (a : Mx) : Mx := mSeq (mRepExact lo a) (mRepUpTo (hi - lo) a)

def mStarFuel (a : Mx) : Nat → Mx
  | 0 => mEps
  | n + 1 => fun cs =>
    uniqLens ((((a cs).filter (fun r => r.length < cs.length)).flatMap
      (fun r => mStarFuel a n r)) ++ [cs])

/-- Regex `a*`; only progressing repetitions are iterated, which preserves
match existence. -/
def mStar (a : Mx) : Mx := fun cs => mStarFuel a cs.length cs

/-- Regex `[p]*` on a character class: all split points of the maximal run. -/
def mStarCls (p : Char → Bool) : Mx := fun cs =>
  let (run, rest) := spanRun p cs
  (List.range (run.length + 1)).map (fun k => run.drop k ++ rest)

/-- Regex `[p]+` on a character class. -/
def mPlusCls (p : Char → Bool) : Mx := fun cs =>
  let (run, rest) := spanRun p cs
  (List.range run.length).map (fun k => run.drop (k + 1) ++ rest)

/-- Regex lookahead `(?=a)`. -/
def mLook (a : Mx) : Mx := fun cs => if (a cs).isEmpty then [] else [cs]

/-- Regex `$` (end of input). -/
def mEnd : Mx := fun cs => if cs.isEmpty then [[]] else []

def searchAny (m : Mx) : Cs → Bool
  | [] => !(m []).isEmpty
  | cs@(_ :: t) => !(m cs).isEmpty || searchAny m t

/-! ### Author-head patterns (`build_author_patterns`, `parsing_helpers.py`
lines 230-340, with `fullname_detection = False` as in `doiref.py`'s
default `--ref-type N`)

`UP = A-ZÅÄÖÜÉÑÇŞŽŠĐĆČŁÓŚŹŻÁØÍÚÈÓÆØÔ`
`PARTICLES = (?:von|van|der|van\s+der|de|di|av|af|de\s+la|del|dos|da|le|la|du|mac|mc|san|st|bin|ibn|d'|l')`
`surname_part = (?:(?i:PARTICLES)\s+)?[UP][\w'’\-.]+`
`surname_token = surname_part(?: (?: {1,3}|-)surname_part){0,2}`
`author_sep = (?:,\s{0,3}| {1,3})`
`initial = [UP](?:\.)?(?=(?:\s|$|[\.,;:\)\(\-&/]))`
`initials = initial(?:(?: {1,3}|[.\-])initial){0,3}`
`author_pattern = ^surname_token author_sep initials trailer\b`
`author_start_like = ^surname_token author_sep initials\b`
`author_start_like_multi = ^surname_token author_sep initials`

For boolean `.match` use, the trailing `\b` and the optional `trailer*`
are existence-neutral: the lookahead inside `initial` only admits a
non-word character (or end) after the consumed text, so a parse ending in
a bare capital always exists whenever any parse exists (the optional dot
can be left unconsumed, the dot itself being in the lookahead class), and
after a bare capital the word boundary always holds; `trailer` is a star,
so the empty repetition is always available.  Hence all three compiled
patterns agree as booleans with `^surname_token author_sep initials`. -/

def isUpC (c : Char) : Bool :=
  isAsciiUpperC c || (csOf "ÅÄÖÜÉÑÇŞŽŠĐĆČŁÓŚŹŻÁØÍÚÈÓÆØÔ").contains c

/-- The class `[\w'’\-.]` of `surname_part`. -/
def isSurnameCls (c : Char) : Bool :=
  isWordC c || c == '\'' || c == '’' || c == '-' || c == '.'

def mParticle : Mx := mAlts
  [mStrCI "von", mStrCI "van", mStrCI "der",
   mSeq (mStrCI "van") (mSeq (mPlusCls isPySpace) (mStrCI "der")),
   mStrCI "de", mStrCI "di", mStrCI "av", mStrCI "af",
   mSeq (mStrCI "de") (mSeq (mPlusCls isPySpace) (mStrCI "la")),
   mStrCI "del", mStrCI "dos", mStrCI "da", mStrCI "le", mStrCI "la", mStrCI "du",
   mStrCI "mac", mStrCI "mc", mStrCI "san", mStrCI "st", mStrCI "bin", mStrCI "ibn",
   mSeq (mStrCI "d") (mCh (fun c => c == '\'')),
   mSeq (mStrCI "l") (mCh (fun c => c == '\''))]

def mSurnamePart : Mx :=
  mSeq (mOpt (mSeq mParticle (mPlusCls isPySpace))) (mSeq (mCh isUpC) (mPlusCls isSurnameCls))

/-- The inter-part separator `(?: (?: {1,3}|-)...)`: one space followed by
one to three further spaces or a hyphen (transliterated verbatim from the
source f-string). -/
def mSurnameSep : Mx :=
  mSeq (mCh (fun c => c == ' '))
    (mAlt (mRepRange 1 3 (mCh (fun c => c == ' '))) (mCh (fun c => c == '-')))

def mSurnameToken : Mx := mSeq mSurnamePart (mRepUpTo 2 (mSeq mSurnameSep mSurnamePart))

def mAuthorSep : Mx :=
  mAlt (mSeq (mCh (fun c => c == ',')) (mRepUpTo 3 (mCh isPySpace)))
    (mRepRange 1 3 (mCh (fun c => c == ' ')))

def mInitSepLook : Mx :=
  mLook (mAlts [mCh isPySpace, mEnd, mCh (fun c => (csOf ".,;:)(-&/").contains c)])

def mInitial : Mx := mSeq (mCh isUpC) (mSeq (mOpt (mCh (fun c => c == '.'))) mInitSepLook)

def mInitials : Mx :=
  mSeq mInitial (mRepUpTo 3 (mSeq
    (mAlt (mRepRange 1 3 (mCh (fun c => c == ' '))) (mCh (fun c => c == '.' || c == '-')))
    mInitial))

def mAuthorHead : Mx := mSeq mSurnameToken (mSeq mAuthorSep mInitials)

/-- Boolean `author_pattern.match` (see the existence-neutrality note above). -/
def author_pattern (s : String) : Bool := !(mAuthorHead (csOf s)).isEmpty

/-- Boolean `author_start_like.match` (the matcher consulted by
`hyphen_join_fixed_point`). -/
def author_start_like (s : String) : Bool := !(mAuthorHead (csOf s)).isEmpty

/-- Boolean `author_start_like_multi.match` (= `author_start_like_active`
when fullname detection is off). -/
def author_start_like_multi (s : String) : Bool := !(mAuthorHead (csOf s)).isEmpty

/-! ### Parenthesized-year patterns (`build_parenthesized_year_patterns`,
`parsing_helpers.py` lines 862-927)

`YEAR_NUM = (?:17[5-9]\d|18\d{2}|19\d{2}|20(?:0\d|1\d|2\d|30))`
`YEAR_SINGLE = YEAR_NUM[A-Za-z]?`  (the second assignment overwrites the
`[A-Pa-p]?` variant)
`YEAR_PAREN = \((?:INNER|STATUS)\)` with INNER the alternation of double
years, full dates, a year with optional textual date part and optional
bracketed second year, and ISO dates. -/

def eatYearNum : Cs → Option Cs
  | '1' :: '7' :: a :: b :: r =>
      if ('5' ≤ a && a ≤ '9') && isDigitC b then some r else none
  | '1' :: '8' :: a :: b :: r => if isDigitC a && isDigitC b then some r else none
  | '1' :: '9' :: a :: b :: r => if isDigitC a && isDigitC b then some r else none
  | '2' :: '0' :: a :: b :: r =>
      if (a == '0' || a == '1' || a == '2') && isDigitC b then some r
      else if a == '3' && b == '0' then some r else none
  | _ => none

def mYearNum : Mx := fun cs =>
  match eatYearNum cs with
  | some r => [r]
  | none => []

def mYearSingle : Mx := mSeq mYearNum (mOpt (mCh isAsciiAlphaC))

def mMonth : Mx := mAlts
  [mSeq (mStrCI "jan") (mOpt (mStrCI "uary")),
   mSeq (mStrCI "feb") (mOpt (mStrCI "ruary")),
   mSeq (mStrCI "mar") (mOpt (mStrCI "ch")),
   mSeq (mStrCI "apr") (mOpt (mStrCI "il")),
   mStrCI "may",
   mSeq (mStrCI "jun") (mOpt (mStrCI "e")),
   mSeq (mStrCI "jul") (mOpt (mStrCI "y")),
   mSeq (mStrCI "aug") (mOpt (mStrCI "ust")),
   mSeq (mStrCI "sept") (mOpt (mStrCI "ember")),
   mSeq (mStrCI "oct") (mOpt (mStrCI "ober")),
   mSeq (mStrCI "nov") (mOpt (mStrCI "ember")),
   mSeq (mStrCI "dec") (mOpt (mStrCI "ember")),
   mStrCI "januari", mStrCI "februari", mStrCI "mars", mStrCI "april", mStrCI "maj",
   mStrCI "juni", mStrCI "juli", mStrCI "augusti", mStrCI "september", mStrCI "oktober",
   mStrCI "november", mStrCI "december"]

/-- Regex `(?:\s*,?\s*MONTHS\s+\d{1,2}(?:st|nd|rd|th)?)?`. -/
def mYearDatePart : Mx := mOpt (mSeq (mStarCls isPySpace) (mSeq (mOpt (mCh (fun c => c == ',')))
  (mSeq (mStarCls isPySpace) (mSeq mMonth (mSeq (mPlusCls isPySpace)
    (mSeq (mRepRange 1 2 (mCh isDigitC))
      (mOpt (mAlts [mStr "st", mStr "nd", mStr "rd", mStr "th"]))))))))

/-- Regex `\d{1,2}\s+MONTHS\s+YEAR_NUM`. -/
def mFullDate : Mx :=
  mSeq (mRepRange 1 2 (mCh isDigitC)) (mSeq (mPlusCls isPySpace)
    (mSeq mMonth (mSeq (mPlusCls isPySpace) mYearNum)))

def mStatusBase : Mx := mAlts
  [mStrCI "forthcoming",
   mSeq (mStrCI "in") (mSeq (mPlusCls isPySpace) (mStrCI "press")),
   mStrCI "submitted", mStrCI "unpublished",
   mSeq (mStrCI "n") (mSeq (mOpt (mCh (fun c => c == '.')))
     (mSeq (mStrCI "d") (mOpt (mCh (fun c => c == '.'))))),
   mStrCI "no date",
   mSeq (mStrCI "u") (mSeq (mOpt (mCh (fun c => c == '.')))
     (mSeq (mStrCI "å") (mOpt (mCh (fun c => c == '.')))))]

/-- Regex `STATUS_TOKENS` with its optional `(?:\s*(?:-\s*)?[A-Za-z])?` trailer. -/
def mStatus : Mx := mSeq mStatusBase (mOpt (mSeq (mStarCls isPySpace)
  (mSeq (mOpt (mSeq (mCh (fun c => c == '-')) (mStarCls isPySpace))) (mCh isAsciiAlphaC))))

/-- Regex `(?:0[1-9]|1[0-2])`. -/
def mMonth2 : Mx := fun cs =>
  match cs with
  | '0' :: c :: r => if isDigitC c && c != '0' then [r] else []
  | '1' :: c :: r => if c == '0' || c == '1' || c == '2' then [r] else []
  | _ => []

/-- Regex `(?:0[1-9]|[12]\d|3[01])`. -/
def mDay2 : Mx := fun cs =>
  match cs with
  | '0' :: c :: r => if isDigitC c && c != '0' then [r] else []
  | '1' :: c :: r => if isDigitC c then [r] else []
  | '2' :: c :: r => if isDigitC c then [r] else []
  | '3' :: c :: r => if c == '0' || c == '1' then [r] else []
  | _ => []

def mIsoDate : Mx :=
  mSeq mYearNum (mSeq (mCh (fun c => c == '-'))
    (mSeq mMonth2 (mOpt (mSeq (mCh (fun c => c == '-')) mDay2))))

def mBracketYear : Mx :=
  mSeq (mCh (fun c => c == '[')) (mSeq mYearSingle (mCh (fun c => c == ']')))

def mYearParenInner : Mx := mAlts
  [mSeq mYearSingle (mSeq (mStarCls isPySpace) mBracketYear),
   mSeq mYearSingle (mSeq (mCh (fun c => c == '/')) mYearSingle),
   mFullDate,
   mSeq mYearSingle (mSeq mYearDatePart (mOpt (mSeq (mStarCls isPySpace) mBracketYear))),
   mIsoDate]

def mYearParen : Mx :=
  mSeq (mCh (fun c => c == '(')) (mSeq (mAlt mYearParenInner mStatus) (mCh (fun c => c == ')')))

/-- Boolean `YEAR_PAREN.search`. -/
def yearParenSearch (s : String) : Bool := searchAny mYearParen (csOf s)

/-! ### Hyphenation joiner (`hyphen_join_fixed_point`,
`parsing_helpers.py` lines 764-859)

Continuation characters: `hyphen_chars = "-­‐‑‒–—―−_"`
(hyphen, soft hyphen, the dash code points, minus sign, underscore; note
that `/` is NOT in the set, so the author-start guard for a trailing
slash is unreachable).  Default iteration cap: 8. -/

def hyphenChars : List Char :=
  ['-', '­', '‐', '‑', '‒', '–', '—', '―', '−', '_']

def hyphenPassGo : Nat → List String → List String
  | 0, prev => prev
  | _ + 1, [] => []
  | fuel + 1, curr :: rest =>
    let s := pyRstrip curr
    match (csOf s).reverse with
    | [] => curr :: hyphenPassGo fuel rest
    | lastC :: _ =>
      if hyphenChars.contains lastC then
        match rest.dropWhile (fun l => (csOf l).all isPySpace) with
        | [] => curr :: hyphenPassGo fuel rest
        | nxt :: rest2 =>
          if lastC == '/' && author_start_like (pyLstrip nxt) then
            curr :: hyphenPassGo fuel rest
          else (pyRstrip curr ++ pyLstrip nxt) :: hyphenPassGo fuel rest2
      else curr :: hyphenPassGo fuel rest

def hyphenPass (prev : List String) : List String := hyphenPassGo (prev.length + 1) prev

def hyphenLoop : Nat → List String → List String
  | 0, prev => prev
  | fuel + 1, prev =>
    let out := hyphenPass prev
    if out == prev || fuel == 0 then out else hyphenLoop fuel out

/-- Embeds `hyphen_join_fixed_point` with the default cap of 8. -/
def hyphen_join_fixed_point (input : List String) : List String :=
  match input with
  | [] => []
  | _ => hyphenLoop 8 (input.filter (fun l => pyStrip l != ""))

/-! ### Main author-year join pass (`one_pass_apply`, `doiref.py`
lines 1087-1166) and the append-nonyear pass (lines 1182-1226). -/

def hasDigitC (cs : Cs) : Bool := cs.any isDigitC

def wsCount (cs : Cs) : Nat := (cs.filter isPySpace).length

/-- The author-start condition of `one_pass_apply`: strict author pattern,
or active start-like matcher, or the comma-chain heuristic; all under the
`at least two whitespace characters and no digit` guard. -/
def opaCondition (ln : String) : Bool :=
  (author_pattern ln || author_start_like_multi ln ||
    ((match (csOf (pyRstrip ln)).reverse with | c :: _ => c == ',' | [] => false) &&
      2 ≤ countC ',' (csOf ln) && !yearParenSearch ln && !hasDigitC (csOf ln)))
  && 2 ≤ wsCount (csOf ln) && !hasDigitC (csOf ln)

def onePassGo : Nat → List String → List String
  | 0, input => input
  | _ + 1, [] => []
  | fuel + 1, l0 :: rest =>
    let ln := pyStrip l0
    if ln == "" then onePassGo fuel rest
    else if yearParenSearch ln then ln :: onePassGo fuel rest
    else if opaCondition ln then
      match rest.dropWhile (fun l => pyStrip l == "") with
      | [] => ln :: onePassGo fuel rest
      | nxt :: rest2 => (ln ++ " " ++ pyStrip nxt) :: onePassGo fuel rest2
    else ln :: onePassGo fuel rest

/-- Embeds `one_pass_apply`. -/
def one_pass_apply (input : List String) : List String := onePassGo (input.length + 1) input

/-- The fixed-point loop around `one_pass_apply` (`MAX_ITER` default 10). -/
def joinLoop : Nat → List String → List String
  | 0, lines => lines
  | fuel + 1, lines =>
    let new := one_pass_apply lines
    if new == lines || fuel == 0 then new else joinLoop fuel new

def anpGo : List String → List String → List String
  | accRev, [] => accRev.reverse
  | accRev, ln :: rest =>
    if !yearParenSearch ln then
      if starts_with_prop_or_sou (pyLstrip ln) then anpGo (ln :: accRev) rest
      else
        match accRev with
        | prev :: tl => anpGo ((pyRstrip prev ++ " " ++ pyLstrip ln) :: tl) rest
        | [] => anpGo [ln] rest
    else anpGo (ln :: accRev) rest

/-- Embeds `append_nonyear_pass`: every non-first line without a
parenthesized year is appended to the previous line unless it starts with
a Prop./SOU marker. -/
def append_nonyear_pass : List String → List String
  | [] => []
  | first :: rest => anpGo [first] rest

/-- The fixed-point loop around `append_nonyear_pass` (cap 10). -/
def nonyearLoop : Nat → List String → List String
  | 0, lines => lines
  | fuel + 1, lines =>
    let new := append_nonyear_pass lines
    if new == lines || fuel == 0 then new else nonyearLoop fuel new

/-- The full fixed-point join pass of the author-year path: the iterated
`one_pass_apply` followed by the iterated `append_nonyear_pass`. -/
def fullJoin (lines : List String) : List String := nonyearLoop 10 (joinLoop 10 lines)

/-! ### DOI machinery (`parsing_helpers.py` lines 457-717 and 966-1131)

Centralized regexes:
`DOI_ID_RE = \b10\.\d{4,9}/[^\s\)\]\,;]+`
`DOI_HTTP_URL_RE = https?://(?:dx\.)?doi\.org/([^\s\)\]\,;]+)` (I)
`DOI_BARE_URL_RE = \b(?:doi\.org/|dx\.doi\.org/)([^\s\)\]\,;]+)` (I)
`DOI_COLON_CAPTURE_RE = (?i)\bdoi:\s*\[?\s*([^\s\)\]\,;]+)(?:\s+([^\s\)\]\,;]+))?\s*\]?`
`DOI_BROKEN_TWO_TOKEN_RE = \b(10\.\d{4,9}/[^\s\)\]\,;]+)\s+([^\s\)\]\,;]+)`
`DOI_URL_SPLIT_RE = (https?://(?:dx\.)?doi\.org/\S+|dx\.doi\.org/\S+|doi\.org/\S+|doi:\S+)` (I)
`DOI_HTTP_URL_WITH_TAIL_RE`, `DOI_BARE_URL_WITH_TAIL_RE`: the URL forms
followed by `\s+([^\s\)\]\,;]+)`.

Each is embedded as a deterministic matcher; greedy character-class runs
cannot back off in these patterns because the character that follows a
shortened run would belong to the same class the next regex element
rejects, so a single greedy parse decides the match exactly as Python's
backtracking engine does. -/

/-- Class `[^\s\)\]\,;]`. -/
def clsA (c : Char) : Bool :=
  !isPySpace c && c != ')' && c != ']' && c != ',' && c != ';'

/-- Class `[^\s\)\]\\,;]` (also excludes the backslash). -/
def clsB (c : Char) : Bool := clsA c && c != '\\'

/-- Class `[^\s\)\]\.,;]` of the validation regex. -/
def clsV (c : Char) : Bool :=
  !isPySpace c && c != ')' && c != ']' && c != '.' && c != ',' && c != ';'

def nonWs (c : Char) : Bool := !isPySpace c

def punctSet : Cs := csOf ".,;()[]"

/-- Python `str.rstrip('.,;()[]')`. -/
def rstripPunct (cs : Cs) : Cs := rstripSet punctSet cs

/-- Python `str.strip('.,;()[]')`. -/
def stripPunct (cs : Cs) : Cs := rstripSet punctSet (lstripSet punctSet cs)

/-- Python `str.replace(' ', '')` (ASCII space only). -/
def removeSpaces (cs : Cs) : Cs := cs.filter (fun c => c != ' ')

def startsWithCs : Cs → Cs → Bool
  | [], _ => true
  | _ :: _, [] => false
  | n :: ns, h :: hs => n == h && startsWithCs ns hs

def endsWithCs (sfx cs : Cs) : Bool := startsWithCs sfx.reverse cs.reverse

def containsSub (needle : Cs) : Cs → Bool
  | [] => needle.isEmpty
  | hay@(_ :: t) => startsWithCs needle hay || containsSub needle t

def containsSubCI (needle hay : Cs) : Bool :=
  containsSub (needle.map lowC) (hay.map lowC)

/-- Ends with `.`, `-` or `_` (the broken-token split characters). -/
def endsSplitChar (cs : Cs) : Bool :=
  endsWithCs (csOf ".") cs || endsWithCs (csOf "-") cs || endsWithCs (csOf "_") cs

def nonWordPrev : Option Char → Bool
  | none => true
  | some c => !isWordC c

/-- Regex `https?://` (case-insensitive). -/
def eatHttpProto (cs : Cs) : Option Cs :=
  match eatStrCI (csOf "http") cs with
  | none => none
  | some r1 =>
    let r2 := match eatStrCI (csOf "s") r1 with
              | some x => x
              | none => r1
    eatStrCI (csOf "://") r2

/-- Regex `https?://(?:dx\.)?doi\.org/` (case-insensitive). -/
def eatHttpDoiOrg (cs : Cs) : Option Cs :=
  match eatHttpProto cs with
  | none => none
  | some r =>
    let r2 := match eatStrCI (csOf "dx.") r with
              | some x => x
              | none => r
    eatStrCI (csOf "doi.org/") r2

/-- Regex `(?:doi\.org/|dx\.doi\.org/)` (case-insensitive, alternation order
as in the source). -/
def eatBareDoiOrg (cs : Cs) : Option Cs :=
  match eatStrCI (csOf "doi.org/") cs with
  | some r => some r
  | none => eatStrCI (csOf "dx.doi.org/") cs

/-- Regex `DOI_HTTP_URL_RE`: returns (group 1, rest). -/
def matchDoiHttpUrl (cs : Cs) : Option (Cs × Cs) :=
  match eatHttpDoiOrg cs with
  | none => none
  | some r =>
    let (g, rest) := spanRun clsA r
    if g.isEmpty then none else some (g, rest)

/-- Regex `DOI_BARE_URL_RE` (without the `\b`, which the scanner checks). -/
def matchBareUrl (cs : Cs) : Option (Cs × Cs) :=
  match eatBareDoiOrg cs with
  | none => none
  | some r =>
    let (g, rest) := spanRun clsA r
    if g.isEmpty then none else some (g, rest)

/-- Regex `DOI_ID_RE` body `10\.\d{4,9}/[^\s\)\]\,;]+`: returns (matched text, rest). -/
def matchDoiId (cs : Cs) : Option (Cs × Cs) :=
  match cs with
  | '1' :: '0' :: '.' :: r =>
    let (ds, r2) := spanRun isDigitC r
    if ds.length < 4 || 9 < ds.length then none
    else
      match r2 with
      | '/' :: r3 =>
        let (sfx, r4) := spanRun clsA r3
        if sfx.isEmpty then none
        else some ('1' :: '0' :: '.' :: (ds ++ '/' :: sfx), r4)
      | _ => none
  | _ => none

/-- Regex `DOI_BROKEN_TWO_TOKEN_RE` body: returns ((group1, group2), rest). -/
def matchBrokenTwo (cs : Cs) : Option ((Cs × Cs) × Cs) :=
  match matchDoiId cs with
  | none => none
  | some (g1, r1) =>
    let (ws, r2) := spanRun isPySpace r1
    if ws.isEmpty then none
    else
      let (g2, r3) := spanRun clsA r2
      if g2.isEmpty then none else some ((g1, g2), r3)

/-- Regex `DOI_COLON_CAPTURE_RE` body: returns ((group1, group2?), rest); the
match also consumes the trailing `\s*\]?`. -/
def matchDoiColon (cs : Cs) : Option ((Cs × Option Cs) × Cs) :=
  match eatStrCI (csOf "doi:") cs with
  | none => none
  | some r1 =>
    let r2 := eatRun isPySpace r1
    let r3 := optEat (eatCh (fun c => c == '[')) r2
    let r4 := eatRun isPySpace r3
    let (g1, r5) := spanRun clsA r4
    if g1.isEmpty then none
    else
      let (ws, r6) := spanRun isPySpace r5
      let (g2, r7) := spanRun clsA r6
      if !ws.isEmpty && !g2.isEmpty then
        let r8 := eatRun isPySpace r7
        some ((g1, some g2), optEat (eatCh (fun c => c == ']')) r8)
      else
        let r8 := eatRun isPySpace r5
        some ((g1, none), optEat (eatCh (fun c => c == ']')) r8)

/-- Regex `DOI_HTTP_URL_WITH_TAIL_RE` body. -/
def matchHttpTail (cs : Cs) : Option ((Cs × Cs) × Cs) :=
  match matchDoiHttpUrl cs with
  | none => none
  | some (g1, r1) =>
    let (ws, r2) := spanRun isPySpace r1
    if ws.isEmpty then none
    else
      let (g2, r3) := spanRun clsA r2
      if g2.isEmpty then none else some ((g1, g2), r3)

/-- Regex `DOI_BARE_URL_WITH_TAIL_RE` body. -/
def matchBareTail (cs : Cs) : Option ((Cs × Cs) × Cs) :=
  match matchBareUrl cs with
  | none => none
  | some (g1, r1) =>
    let (ws, r2) := spanRun isPySpace r1
    if ws.isEmpty then none
    else
      let (g2, r3) := spanRun clsA r2
      if g2.isEmpty then none else some ((g1, g2), r3)

/-! #### Generic sub / finditer scanners -/

/-- Left-to-right `re.sub`: at each position try the matcher (which gets
the preceding original character for word boundaries and returns the
replacement and the remainder); on failure advance one character.  All
embedded patterns match at least one character, so `length + 1` fuel is
exact. -/
def subScan : Nat → (Option Char → Cs → Option (Cs × Cs)) → Option Char → Cs → Cs
  | 0, _, _, cs => cs
  | fuel + 1, m, prev, cs =>
    match m prev cs with
    | some (rep, rest) =>
      let k := cs.length - rest.length
      rep ++ subScan fuel m (cs.take k).getLast? rest
    | none =>
      match cs with
      | [] => []
      | c :: t => c :: subScan fuel m (some c) t

def runSub (m : Option Char → Cs → Option (Cs × Cs)) (cs : Cs) : Cs :=
  subScan (cs.length + 1) m none cs

/-- Variant of `subScan` whose matcher also sees the reversed original
left context (needed for the 30-character lookback of
`_add_doi_org_prefix`, which inspects the original string). -/
def subScanCtx : Nat → (Cs → Cs → Option (Cs × Cs)) → Cs → Cs → Cs
  | 0, _, _, cs => cs
  | fuel + 1, m, leftRev, cs =>
    match m leftRev cs with
    | some (rep, rest) =>
      let k := cs.length - rest.length
      rep ++ subScanCtx fuel m ((cs.take k).reverse ++ leftRev) rest
    | none =>
      match cs with
      | [] => []
      | c :: t => c :: subScanCtx fuel m (c :: leftRev) t

def runSubCtx (m : Cs → Cs → Option (Cs × Cs)) (cs : Cs) : Cs :=
  subScanCtx (cs.length + 1) m [] cs

/-- Embeds `re.finditer` with absolute span positions: returns the list of
`(start, end, payload)` of the non-overlapping leftmost matches. -/
def scanIterPos {α : Type} (m : Option Char → Cs → Option (α × Cs)) :
    Nat → Option Char → Nat → Cs → List (Nat × Nat × α)
  | 0, _, _, _ => []
  | fuel + 1, prev, pos, cs =>
    match m prev cs with
    | some (a, rest) =>
      let k := cs.length - rest.length
      (pos, pos + k, a) :: scanIterPos m fuel (cs.take k).getLast? (pos + k) rest
    | none =>
      match cs with
      | [] => []
      | c :: t => scanIterPos m fuel (some c) (pos + 1) t

def finditer {α : Type} (m : Option Char → Cs → Option (α × Cs)) (cs : Cs) :
    List (Nat × Nat × α) :=
  scanIterPos m (cs.length + 1) none 0 cs

def itHttp (_ : Option Char) (cs : Cs) : Option (Cs × Cs) := matchDoiHttpUrl cs

def itBareUrl (prev : Option Char) (cs : Cs) : Option (Cs × Cs) :=
  if nonWordPrev prev then matchBareUrl cs else none

def itColon (prev : Option Char) (cs : Cs) : Option ((Cs × Option Cs) × Cs) :=
  if nonWordPrev prev then matchDoiColon cs else none

def itId (prev : Option Char) (cs : Cs) : Option (Cs × Cs) :=
  if nonWordPrev prev then matchDoiId cs else none

def itBroken (prev : Option Char) (cs : Cs) : Option ((Cs × Cs) × Cs) :=
  if nonWordPrev prev then matchBrokenTwo cs else none

def itHttpTail (_ : Option Char) (cs : Cs) : Option ((Cs × Cs) × Cs) := matchHttpTail cs

def itBareTail (prev : Option Char) (cs : Cs) : Option ((Cs × Cs) × Cs) :=
  if nonWordPrev prev then matchBareTail cs else none

/-! #### `normalize_doi_in_fragment` (`parsing_helpers.py` lines 987-1067) -/

/-- Regex body `10\.[0-9]{2,9}[^\s\)\]\\,;]{0,200}`: the greedy digit run
feeds at most 9 digits to `[0-9]{2,9}`, the remaining digits and
subsequent class characters to the 200-capped class segment. -/
def eatDoi29Cls (cs : Cs) : Option (Cs × Cs) :=
  match cs with
  | '1' :: '0' :: '.' :: r =>
    let (ds, r2) := spanRun isDigitC r
    if ds.length < 2 then none
    else
      let d9 := ds.take 9
      let extra := ds.drop 9
      if 200 < extra.length then
        some ('1' :: '0' :: '.' :: (d9 ++ extra.take 200), extra.drop 200 ++ r2)
      else
        let clsTaken := (r2.takeWhile clsB).take (200 - extra.length)
        some ('1' :: '0' :: '.' :: (d9 ++ extra ++ clsTaken), r2.drop clsTaken.length)
  | _ => none

/-- Sub `(https?://(?:dx\.)?doi\.org/)\s*1\s+0\.` → `\1` + `10.`. -/
def subN1 (_ : Option Char) (cs : Cs) : Option (Cs × Cs) :=
  match eatHttpDoiOrg cs with
  | none => none
  | some r1 =>
    let g1 := cs.take (cs.length - r1.length)
    let r2 := eatRun isPySpace r1
    match r2 with
    | '1' :: r3 =>
      let (ws, r4) := spanRun isPySpace r3
      if ws.isEmpty then none
      else
        match r4 with
        | '0' :: '.' :: r5 => some (g1 ++ csOf "10.", r5)
        | _ => none
    | _ => none

/-- Sub `(?i)(doi:\s*)1\s+0\.` → `\1` + `10.`. -/
def subN2 (_ : Option Char) (cs : Cs) : Option (Cs × Cs) :=
  match eatStrCI (csOf "doi:") cs with
  | none => none
  | some r1 =>
    let r2 := eatRun isPySpace r1
    let g1 := cs.take (cs.length - r2.length)
    match r2 with
    | '1' :: r3 =>
      let (ws, r4) := spanRun isPySpace r3
      if ws.isEmpty then none
      else
        match r4 with
        | '0' :: '.' :: r5 => some (g1 ++ csOf "10.", r5)
        | _ => none
    | _ => none

/-- Sub `\b1\s+0\.(?=\d)` → `10.`. -/
def subN3 (prev : Option Char) (cs : Cs) : Option (Cs × Cs) :=
  if !nonWordPrev prev then none
  else
    match cs with
    | '1' :: r1 =>
      let (ws, r2) := spanRun isPySpace r1
      if ws.isEmpty then none
      else
        match r2 with
        | '0' :: '.' :: r3 =>
          match r3 with
          | c :: _ => if isDigitC c then some (csOf "10.", r3) else none
          | [] => none
        | _ => none
    | _ => none

/-- Sub `(https?://(?:dx\.)?doi\.org/)\s*(10\.[0-9]{2,9}cls{0,200})` →
`\1` + whitespace-stripped `\2` (a no-op strip: the class excludes
whitespace; the visible effect is dropping the `\s*`). -/
def subN4 (_ : Option Char) (cs : Cs) : Option (Cs × Cs) :=
  match eatHttpDoiOrg cs with
  | none => none
  | some r1 =>
    let g1 := cs.take (cs.length - r1.length)
    let r2 := eatRun isPySpace r1
    match eatDoi29Cls r2 with
    | none => none
    | some (g2, rest) => some (g1 ++ g2.filter nonWs, rest)

/-- Sub `(?i)(doi:\s*)(10\.[0-9]{2,9}cls{0,200})` → `\1` + stripped `\2`. -/
def subN5 (_ : Option Char) (cs : Cs) : Option (Cs × Cs) :=
  match eatStrCI (csOf "doi:") cs with
  | none => none
  | some r1 =>
    let r2 := eatRun isPySpace r1
    let g1 := cs.take (cs.length - r2.length)
    match eatDoi29Cls r2 with
    | none => none
    | some (g2, rest) => some (g1 ++ g2.filter nonWs, rest)

/-- Sub `\b10\.[0-9]{2,9}cls{0,200}` with `_c3` (whitespace removal inside
the match — an identity, kept for faithfulness). -/
def subN6 (prev : Option Char) (cs : Cs) : Option (Cs × Cs) :=
  if !nonWordPrev prev then none
  else
    match eatDoi29Cls cs with
    | none => none
    | some (g0, rest) => some (g0.filter nonWs, rest)

/-- Sub `\b10\.[0-9]{2,9}cls{0,200}` with `_add_doi_org_prefix`: inspects
the 30 lowercased original characters before the match; if they contain a
DOI/URL marker the token is left unchanged, otherwise it is prefixed with
`doi.org/`. -/
def subN7 (leftRev : Cs) (cs : Cs) : Option (Cs × Cs) :=
  if !nonWordPrev leftRev.head? then none
  else
    match eatDoi29Cls cs with
    | none => none
    | some (g0, rest) =>
      let pre := ((leftRev.take 30).reverse).map lowC
      if containsSub (csOf "doi.org") pre || containsSub (csOf "dx.doi.org") pre ||
         containsSub (csOf "doi:") pre || containsSub (csOf "http://") pre ||
         containsSub (csOf "https://") pre then
        some (g0, rest)
      else some (csOf "doi.org/" ++ g0, rest)

/-- Sub `\{\s*\\?_+\s*\}` → `_`. -/
def subN8 (_ : Option Char) (cs : Cs) : Option (Cs × Cs) :=
  match cs with
  | '\x7b' :: r1 =>
    let r2 := eatRun isPySpace r1
    let r3 := optEat (eatCh (fun c => c == '\\')) r2
    match eatRun1 (fun c => c == '_') r3 with
    | none => none
    | some r4 =>
      let r5 := eatRun isPySpace r4
      match r5 with
      | '\x7d' :: r6 => some (['_'], r6)
      | _ => none
  | _ => none

/-- Sub `(10\.[0-9]{2,9}/)\s+([A-Za-z0-9\-\._/{}]+)` → `\1` + stripped `\2`. -/
def subN9 (_ : Option Char) (cs : Cs) : Option (Cs × Cs) :=
  match cs with
  | '1' :: '0' :: '.' :: r =>
    let (ds, r2) := spanRun isDigitC r
    if ds.length < 2 || 9 < ds.length then none
    else
      match r2 with
      | '/' :: r3 =>
        let g1 := '1' :: '0' :: '.' :: (ds ++ ['/'])
        let (ws, r4) := spanRun isPySpace r3
        if ws.isEmpty then none
        else
          let (g2, r5) := spanRun (fun c =>
            isAsciiAlphaC c || isDigitC c || c == '-' || c == '.' || c == '_' ||
            c == '/' || c == '\x7b' || c == '\x7d') r4
          if g2.isEmpty then none else some (g1 ++ g2.filter nonWs, r5)
      | _ => none
  | _ => none

/-- Embeds `normalize_doi_in_fragment`. -/
def normalize_doi_in_fragment (s0 : Cs) : Cs :=
  let s := if containsSubCI (csOf "doi") s0 then
      runSub subN3 (runSub subN2 (runSub subN1 s0))
    else s0
  let s := runSub subN4 s
  let s := runSub subN5 s
  let s := runSub subN6 s
  let s := runSubCtx subN7 s
  let s := runSub subN8 s
  runSub subN9 s

/-! #### `fix_broken_doi_tokens` (`parsing_helpers.py` lines 1392-1398) -/

/-- Regex `https?://doi\.org` (no `dx.`, no trailing slash). -/
def eatHttpDoiNoDx (cs : Cs) : Option Cs :=
  match eatHttpProto cs with
  | none => none
  | some r => eatStrCI (csOf "doi.org") r

/-- Sub `(https?://doi\.org)10\.` → `\1/10.`. -/
def subF1 (_ : Option Char) (cs : Cs) : Option (Cs × Cs) :=
  match eatHttpDoiNoDx cs with
  | none => none
  | some r =>
    let g1 := cs.take (cs.length - r.length)
    match eatStr (csOf "10.") r with
    | some r2 => some (g1 ++ csOf "/10.", r2)
    | none => none

/-- Sub `(https?://doi\.org)\s+10\.` → `\1/10.`. -/
def subF2 (_ : Option Char) (cs : Cs) : Option (Cs × Cs) :=
  match eatHttpDoiNoDx cs with
  | none => none
  | some r =>
    let g1 := cs.take (cs.length - r.length)
    let (ws, r2) := spanRun isPySpace r
    if ws.isEmpty then none
    else
      match eatStr (csOf "10.") r2 with
      | some r3 => some (g1 ++ csOf "/10.", r3)
      | none => none

/-- Sub `https?://doi\.\s*org` → `https://doi.org`. -/
def subF3 (_ : Option Char) (cs : Cs) : Option (Cs × Cs) :=
  match eatHttpProto cs with
  | none => none
  | some r =>
    match eatStrCI (csOf "doi.") r with
    | none => none
    | some r2 =>
      let r3 := eatRun isPySpace r2
      match eatStrCI (csOf "org") r3 with
      | some r4 => some (csOf "https://doi.org", r4)
      | none => none

/-- Sub `(https?://doi\.org)10(?![\d/\.])` → `\1/10`. -/
def subF4 (_ : Option Char) (cs : Cs) : Option (Cs × Cs) :=
  match eatHttpDoiNoDx cs with
  | none => none
  | some r =>
    let g1 := cs.take (cs.length - r.length)
    match eatStr (csOf "10") r with
    | some r2 =>
      match r2 with
      | c :: _ => if isDigitC c || c == '/' || c == '.' then none
                  else some (g1 ++ csOf "/10", r2)
      | [] => some (g1 ++ csOf "/10", r2)
    | none => none

/-- Embeds `fix_broken_doi_tokens`. -/
def fix_broken_doi_tokens (s : Cs) : Cs :=
  runSub subF4 (runSub subF3 (runSub subF2 (runSub subF1 s)))

/-! #### `split_urls_and_dois` and the two reattach passes
(`parsing_helpers.py` lines 1134-1389) -/

/-- One alternative of `DOI_URL_SPLIT_RE` at the current position. -/
def matchUrlSplit (cs : Cs) : Option Cs :=
  match eatHttpDoiOrg cs with
  | some r => eatRun1 nonWs r
  | none =>
    match eatStrCI (csOf "dx.doi.org/") cs with
    | some r => eatRun1 nonWs r
    | none =>
      match eatStrCI (csOf "doi.org/") cs with
      | some r => eatRun1 nonWs r
      | none =>
        match eatStrCI (csOf "doi:") cs with
        | some r => eatRun1 nonWs r
        | none => none

def findUrlSplitGo : Nat → Cs → Cs → Option (Cs × Cs × Cs)
  | 0, _, _ => none
  | fuel + 1, beforeRev, cs =>
    match matchUrlSplit cs with
    | some rest => some (beforeRev.reverse, cs.take (cs.length - rest.length), rest)
    | none =>
      match cs with
      | [] => none
      | c :: t => findUrlSplitGo fuel (c :: beforeRev) t

def splitUrlsGo : Nat → Cs → List Cs
  | 0, cs => [cs]
  | fuel + 1, cs =>
    match findUrlSplitGo (cs.length + 1) [] cs with
    | none => [cs]
    | some (before, url, after) =>
      let b := stripC before
      let u := stripC url
      let a := stripC after
      let headFrag := if b.isEmpty then u else b ++ ' ' :: u
      if a.isEmpty then [headFrag] else headFrag :: splitUrlsGo fuel a

/-- Embeds `split_urls_and_dois`. -/
def split_urls_and_dois (ref : Cs) : List Cs := splitUrlsGo (ref.length + 1) ref

/-- The `^[\s\.:;,\-\(\[\)\]]+` leading cleanup used by both reattach passes. -/
def cleanLeadPunct (cs : Cs) : Cs :=
  cs.dropWhile (fun c => isPySpace c ||
    c == '.' || c == ':' || c == ';' || c == ',' || c == '-' ||
    c == '(' || c == '[' || c == ')' || c == ']')

/-- Embeds `doi_prefix_re.search` plus the extra endswith checks of the conservative
pass: `(?:doi\.org(?:/)?|dx\.doi\.org(?:/)?|doi:|https?://)$` (I), or a
trailing `https://`/`http://`, or a trailing `/`. -/
def prevLooksDoiPref (ps : Cs) : Bool :=
  let low := ps.map lowC
  endsWithCs (csOf "doi.org") low || endsWithCs (csOf "doi.org/") low ||
  endsWithCs (csOf "doi:") low || endsWithCs (csOf "http://") low ||
  endsWithCs (csOf "https://") low || endsWithCs (csOf "/") ps

/-- Embeds `re.search(r'^[\s\W]*(?:10\.[0-9]+|doi\.org|dx\.doi\.org)', curr, I)`. -/
def currStartsDoi (curr : Cs) : Bool :=
  let r := curr.dropWhile (fun c => isPySpace c || !isWordC c)
  (match r with
   | '1' :: '0' :: '.' :: r2 => !(r2.takeWhile isDigitC).isEmpty
   | _ => false) ||
  (eatStrCI (csOf "doi.org") r).isSome || (eatStrCI (csOf "dx.doi.org") r).isSome

def consReattachGo : List Cs → List Cs → List Cs
  | accRev, [] => accRev.reverse
  | accRev, frag :: rest =>
    match accRev with
    | [] => consReattachGo [frag] rest
    | prev :: tl =>
      if prevLooksDoiPref (stripC prev) && currStartsDoi frag then
        consReattachGo ((rstripC prev ++ lstripC (cleanLeadPunct frag)) :: tl) rest
      else consReattachGo (frag :: accRev) rest

/-- Embeds `conservative_doi_reattach`. -/
def conservative_doi_reattach : List Cs → List Cs
  | [] => []
  | f :: rest => consReattachGo [f] rest

/-- Embeds `doi_start_re.search` of the aggressive pass:
`^[\s\[]*(?:https?://(?:dx\.)?doi\.org/|doi:|10\.)` (I). -/
def doiStartsAggr (prevs : Cs) : Bool :=
  let r := prevs.dropWhile (fun c => isPySpace c || c == '[')
  (eatHttpDoiOrg r).isSome || (eatStrCI (csOf "doi:") r).isSome ||
    startsWithCs (csOf "10.") r

/-- Embeds `re.search(r'\.[A-Za-z0-9]', token)`. -/
def hasInternalDot : Cs → Bool
  | [] => false
  | '.' :: c :: r =>
      if isAsciiAlphaC c || isDigitC c then true else hasInternalDot (c :: r)
  | _ :: r => hasInternalDot r

def aggrReattachGo : List Cs → List Cs → List Cs
  | accRev, [] => accRev.reverse
  | accRev, frag :: rest =>
    match accRev with
    | [] => aggrReattachGo [frag] rest
    | prev :: tl =>
      let prevs := stripC prev
      if endsWithCs (csOf ",") prevs || endsWithCs (csOf ";") prevs ||
         endsWithCs (csOf ":") prevs then
        aggrReattachGo (frag :: accRev) rest
      else if !doiStartsAggr prevs then aggrReattachGo (frag :: accRev) rest
      else
        let cc := cleanLeadPunct frag
        if cc.isEmpty then aggrReattachGo (frag :: accRev) rest
        else
          let token := stripC (cc.takeWhile nonWs)
          if !(token.all (fun c => isAsciiAlphaC c || isDigitC c || c == '-' ||
              c == '.' || c == '_' || c == '/')) then
            aggrReattachGo (frag :: accRev) rest
          else
            let joinOk0 :=
              if token == ['/'] then true
              else token.any isDigitC || token.contains '_' || hasInternalDot token
            let joinOk :=
              if endsWithCs (csOf ".") token then
                if token.contains '_' || token.contains '/' || 1 < countC '.' token then
                  joinOk0
                else false
              else joinOk0
            if !joinOk then aggrReattachGo (frag :: accRev) rest
            else aggrReattachGo ((rstripC prev ++ lstripC cc) :: tl) rest

/-- Embeds `conservative_doi_reattach_aggressive`. -/
def conservative_doi_reattach_aggressive : List Cs → List Cs
  | [] => []
  | f :: rest => aggrReattachGo [f] rest

/-! #### `extract_doi_ids` (`parsing_helpers.py` lines 457-549) -/

/-- The `{2,}`-repetition tail of the duplicate-prefix sub and the
`\s*\S+` token eater of the collapse sub. -/
def dupReps : Nat → Cs → Option Cs
  | 0, _ => none
  | fuel + 1, cs =>
    let r := eatRun isPySpace cs
    match eatHttpDoiOrg r with
    | none => none
    | some r2 =>
      match dupReps fuel r2 with
      | some r3 => some r3
      | none => some r2

/-- Sub `(?i)(https?://(?:dx\.)?doi\.org/)(?:\s*https?://(?:dx\.)?doi\.org/)+` → `\1`. -/
def subDupDoiOrg (_ : Option Char) (cs : Cs) : Option (Cs × Cs) :=
  match eatHttpDoiOrg cs with
  | none => none
  | some r1 =>
    let g1 := cs.take (cs.length - r1.length)
    match dupReps (r1.length + 1) r1 with
    | some rest => some (g1, rest)
    | none => none

/-- Greedily consume up to `n` repetitions of `\s*\S+`. -/
def eatToksUp : Nat → Cs → Cs
  | 0, cs => cs
  | n + 1, cs =>
    let r := eatRun isPySpace cs
    match eatRun1 nonWs r with
    | none => cs
    | some r2 => eatToksUp n r2

def splitToksGo : Nat → Cs → List Cs
  | 0, _ => []
  | fuel + 1, cs =>
    let r := cs.dropWhile isPySpace
    let (tok, rest) := spanRun nonWs r
    if tok.isEmpty then [] else tok :: splitToksGo fuel rest

/-- Python `re.findall(r"\S+", rest)`. -/
def splitToksWs (cs : Cs) : List Cs := splitToksGo (cs.length + 1) cs

/-- Embeds `re.match(r'^[A-Z][a-z]+,?$', nexttok)`. -/
def capWordQ : Cs → Bool
  | c :: rest =>
    isAsciiUpperC c &&
      (let (low, r) := spanRun isAsciiLowerC rest
       !low.isEmpty && (r == [] || r == [',']))
  | [] => false

/-- Embeds `re.match(r'^[A-Z]\.?$', nexttok)`. -/
def capInitQ : Cs → Bool
  | [c] => isAsciiUpperC c
  | [c, '.'] => isAsciiUpperC c
  | _ => false

/-- The `_collapse_after_doi_org` replacement body applied to group 2. -/
def collapseAfterDoiOrg (g2 : Cs) : Cs :=
  match splitToksWs g2 with
  | [] => g2
  | first :: restToks =>
    if !endsSplitChar first then g2
    else
      let keep :=
        match restToks with
        | [] => false
        | nexttok0 :: _ =>
          let nt := stripPunct nexttok0
          capWordQ nt || capInitQ nt || nt == csOf "&" || nt == csOf "and"
      if keep then g2
      else rstripPunct (g2.filter nonWs)

/-- Sub `(https?://(?:dx\.)?doi\.org/)((?:\s*\S+){1,12})` with
`_collapse_after_doi_org`. -/
def subCollapseDoiOrg (_ : Option Char) (cs : Cs) : Option (Cs × Cs) :=
  match eatHttpDoiOrg cs with
  | none => none
  | some r1 =>
    let g1 := cs.take (cs.length - r1.length)
    let rest := eatToksUp 12 r1
    if rest.length == r1.length then none
    else
      let g2 := r1.take (r1.length - rest.length)
      some (g1 ++ collapseAfterDoiOrg g2, rest)

def httpSearchGroup : Nat → Cs → Option Cs
  | 0, _ => none
  | fuel + 1, cs =>
    match matchDoiHttpUrl cs with
    | some (g, _) => some g
    | none =>
      match cs with
      | [] => none
      | _ :: t => httpSearchGroup fuel t

/-- The candidate computed from a `doi:` capture (groups 1 and 2). -/
def colonCandidate (g1 : Cs) (g2 : Option Cs) : Cs :=
  let cand := match g2 with
    | some t2 =>
      if !endsSplitChar g1 then rstripPunct g1
      else rstripPunct (removeSpaces (g1 ++ t2))
    | none => rstripPunct g1
  match httpSearchGroup (cand.length + 1) cand with
  | some g => rstripPunct g
  | none => cand

/-- The strip / bracket-peel / first-encounter dedupe of `extract_doi_ids`. -/
def bracketPeel (cid : Cs) : Cs :=
  if startsWithCs (csOf "[") cid && endsWithCs (csOf "]") cid then
    stripC (cid.drop 1).dropLast
  else cid

def dedupeIdsGo : List Cs → List Cs → List Cs
  | acc, [] => acc.reverse
  | acc, cid0 :: rest =>
    let cid := bracketPeel (stripC cid0)
    if cid.isEmpty || acc.any (fun s => s == cid) then dedupeIdsGo acc rest
    else dedupeIdsGo (cid :: acc) rest

/-- The validation step: `re.match(r'^10\.\d{2,9}/[^\s\)\]\.,;]+', cid)`
and no trailing `.`/`-`/`_`. -/
def validDoiQ (cid : Cs) : Bool :=
  (match cid with
   | '1' :: '0' :: '.' :: r =>
     let (ds, r2) := spanRun isDigitC r
     if ds.length < 2 || 9 < ds.length then false
     else
       match r2 with
       | '/' :: r3 => !(r3.takeWhile clsV).isEmpty
       | _ => false
   | _ => false) && !endsSplitChar cid

/-- The candidate-gathering stage of `extract_doi_ids`: the two prefix
normalization subs followed by the four finditer loops, in source order. -/
def gatherDoiCandidates (text : Cs) : List Cs :=
  let ref := runSub subCollapseDoiOrg (runSub subDupDoiOrg text)
  let idsHttp := (finditer itHttp ref).map (fun x => rstripPunct x.2.2)
  let idsColon := (finditer itColon ref).map (fun x => colonCandidate x.2.2.1 x.2.2.2)
  let idsId := (finditer itId ref).map (fun x => rstripPunct x.2.2)
  let idsBroken := (finditer itBroken ref).filterMap (fun x =>
    if endsSplitChar x.2.2.1 then
      some (rstripPunct (removeSpaces (x.2.2.1 ++ x.2.2.2)))
    else none)
  idsHttp ++ idsColon ++ idsId ++ idsBroken

/-- The deduplicated candidate list (`out` in the source). -/
def dedupedDoiCandidates (text : Cs) : List Cs :=
  dedupeIdsGo [] (gatherDoiCandidates text)

/-- The validated list (`valid` in the source). -/
def validDoiIds (text : Cs) : List Cs := (dedupedDoiCandidates text).filter validDoiQ

/-- Embeds `extract_doi_ids` on character lists. -/
def extract_doi_ids_cs (text : Cs) : List Cs :=
  match text with
  | [] => []
  | _ =>
    let valid := validDoiIds text
    valid.filter (fun cid => !(valid.any (fun o => o != cid && containsSub cid o)))

/-- Embeds `extract_doi_ids`. -/
def extract_doi_ids (s : String) : List String :=
  (extract_doi_ids_cs (csOf s)).map strOf

/-! #### `move_doi_to_end` (`parsing_helpers.py` lines 552-717) -/

/-- The two early rewrites applied to `ref` itself (before `text` is
derived): `(?i)(?:doi:\s*){2,}` → `doi:` and `(?i)\bdoi:\s+` → `doi:`.
These are the only rewrites visible in the early `return ref` path. -/
def doiColonReps : Nat → Cs → Option (Nat × Cs)
  | 0, _ => none
  | fuel + 1, cs =>
    match eatStrCI (csOf "doi:") cs with
    | none => none
    | some r1 =>
      let r2 := eatRun isPySpace r1
      match doiColonReps fuel r2 with
      | some (n, r3) => some (n + 1, r3)
      | none => some (1, r2)

def subColonRep2 (_ : Option Char) (cs : Cs) : Option (Cs × Cs) :=
  match doiColonReps (cs.length + 1) cs with
  | some (n, rest) => if 2 ≤ n then some (csOf "doi:", rest) else none
  | none => none

def subColonWs (prev : Option Char) (cs : Cs) : Option (Cs × Cs) :=
  if !nonWordPrev prev then none
  else
    match eatStrCI (csOf "doi:") cs with
    | none => none
    | some r1 =>
      let (ws, r2) := spanRun isPySpace r1
      if ws.isEmpty then none else some (csOf "doi:", r2)

def doiColonCollapse (ref : Cs) : Cs := runSub subColonWs (runSub subColonRep2 ref)

/-- The processed text from which `move_doi_to_end` extracts identifiers:
normalization, token repair, URL/DOI splitting, the two reattach passes,
and the space re-join (`' '.join(frag.strip() for frag in frags)`). -/
def moveText (ref : Cs) : Cs :=
  let t := normalize_doi_in_fragment ref
  let t := fix_broken_doi_tokens t
  let frags := split_urls_and_dois t
  let frags := conservative_doi_reattach frags
  let frags := conservative_doi_reattach_aggressive frags
  List.intercalate [' '] (frags.map stripC)

/-- The identifier list governing the span-removal and append stage. -/
def moveDoiIds (ref0 : Cs) : List Cs :=
  extract_doi_ids_cs (moveText (doiColonCollapse ref0))

/-- Span collection (the seven finditer loops of `move_doi_to_end`,
lines 611-669), keeping a span only when its computed id is in `doi_ids`. -/
def collectSpans (text : Cs) (ids : List Cs) : List (Nat × Nat) :=
  let inIds := fun cid => ids.any (fun o => o == cid)
  let sHttp := (finditer itHttp text).filterMap (fun x =>
    if inIds (rstripPunct x.2.2) then some (x.1, x.2.1) else none)
  let sBare := (finditer itBareUrl text).filterMap (fun x =>
    if inIds (rstripPunct x.2.2) then some (x.1, x.2.1) else none)
  let sHttpTail := (finditer itHttpTail text).filterMap (fun x =>
    if endsSplitChar x.2.2.1 &&
       inIds (rstripPunct (removeSpaces (x.2.2.1 ++ x.2.2.2))) then
      some (x.1, x.2.1)
    else none)
  let sBareTail := (finditer itBareTail text).filterMap (fun x =>
    if endsSplitChar x.2.2.1 &&
       inIds (rstripPunct (removeSpaces (x.2.2.1 ++ x.2.2.2))) then
      some (x.1, x.2.1)
    else none)
  let sColon := (finditer itColon text).filterMap (fun x =>
    match x.2.2.2 with
    | some g2 =>
      if endsSplitChar x.2.2.1 &&
         inIds (rstripPunct (removeSpaces (x.2.2.1 ++ g2))) then
        some (x.1, x.2.1)
      else none
    | none => if inIds (rstripPunct x.2.2.1) then some (x.1, x.2.1) else none)
  let sId := (finditer itId text).filterMap (fun x =>
    if inIds (rstripPunct x.2.2) then some (x.1, x.2.1) else none)
  let sBroken := (finditer itBroken text).filterMap (fun x =>
    if endsSplitChar x.2.2.1 &&
       inIds (rstripPunct (removeSpaces (x.2.2.1 ++ x.2.2.2))) then
      some (x.1, x.2.1)
    else none)
  sHttp ++ sBare ++ sHttpTail ++ sBareTail ++ sColon ++ sId ++ sBroken

/-- Embeds `sorted(set(spans), key=lambda s: s[0])`: exact-pair dedup then a
stable sort by start (tie order does not affect the merge result). -/
def dedupePairsGo : List (Nat × Nat) → List (Nat × Nat) → List (Nat × Nat)
  | acc, [] => acc.reverse
  | acc, p :: rest =>
    if acc.contains p then dedupePairsGo acc rest
    else dedupePairsGo (p :: acc) rest

def dedupePairs (ps : List (Nat × Nat)) : List (Nat × Nat) := dedupePairsGo [] ps

def insertSpan (p : Nat × Nat) : List (Nat × Nat) → List (Nat × Nat)
  | [] => [p]
  | q :: t => if q.1 ≤ p.1 then q :: insertSpan p t else p :: q :: t

def sortSpans (ps : List (Nat × Nat)) : List (Nat × Nat) :=
  ps.foldl (fun acc p => insertSpan p acc) []

/-- The overlap merge of `move_doi_to_end` (lines 672-683). -/
def mergeSpansGo : List (Nat × Nat) → List (Nat × Nat) → List (Nat × Nat)
  | accRev, [] => accRev.reverse
  | accRev, (s, e) :: rest =>
    match accRev with
    | [] => mergeSpansGo [(s, e)] rest
    | (ps, pe) :: tl =>
      if s ≤ pe then mergeSpansGo ((ps, max pe e) :: tl) rest
      else mergeSpansGo ((s, e) :: (ps, pe) :: tl) rest

def mergeSpans (ps : List (Nat × Nat)) : List (Nat × Nat) := mergeSpansGo [] ps

/-- Replace each merged span (sorted, disjoint) by a single space. -/
def removeSpansGo : List (Nat × Nat) → Nat → Cs → Cs
  | [], _, cs => cs
  | (s, e) :: rest, pos, cs =>
    cs.take (s - pos) ++ ' ' :: removeSpansGo rest e (cs.drop (e - pos))

def removeSpans (text : Cs) (merged : List (Nat × Nat)) : Cs :=
  removeSpansGo merged 0 text

/-- Sub `https?://(?:dx\.)?doi\.org/https?://` → `https://`. -/
def subP1 (_ : Option Char) (cs : Cs) : Option (Cs × Cs) :=
  match eatHttpDoiOrg cs with
  | none => none
  | some r =>
    match eatHttpProto r with
    | some r2 => some (csOf "https://", r2)
    | none => none

/-- Collapse whitespace runs to single spaces (`re.sub(r'\s+', ' ', s)`). -/
def wsCollapseGo : Bool → Cs → Cs
  | _, [] => []
  | inRun, c :: rest =>
    if isPySpace c then
      if inRun then wsCollapseGo true rest else ' ' :: wsCollapseGo true rest
    else c :: wsCollapseGo false rest

def wsCollapse (cs : Cs) : Cs := wsCollapseGo false cs

/-- Sub `\s+([\.,;:])` → `\1`. -/
def subPunctSpace (_ : Option Char) (cs : Cs) : Option (Cs × Cs) :=
  let (ws, r) := spanRun isPySpace cs
  if ws.isEmpty then none
  else
    match r with
    | c :: r2 =>
      if c == '.' || c == ',' || c == ';' || c == ':' then some ([c], r2) else none
    | [] => none

/-- The shared `\s+` collapse, strip, and space-before-punctuation cleanup
closing both `_remove_stray_doi_prefixes` and
`_cleanup_dangling_after_removal`. -/
def tidyWsPunct (s : Cs) : Cs := runSub subPunctSpace (stripC (wsCollapse s))

/-- Group 2 of stray-sub 1: `(10\.[0-9]{4,9}/)`. -/
def eatDoi49Slash (cs : Cs) : Option (Cs × Cs) :=
  match cs with
  | '1' :: '0' :: '.' :: r =>
    let (ds, r2) := spanRun isDigitC r
    if ds.length < 4 || 9 < ds.length then none
    else
      match r2 with
      | '/' :: r3 => some ('1' :: '0' :: '.' :: (ds ++ ['/']), r3)
      | _ => none
  | _ => none

/-- Sub `(?i)\b(doi\.org/|dx\.doi\.org/)\s*(10\.[0-9]{4,9}/)` → `\2`. -/
def subStray1 (prev : Option Char) (cs : Cs) : Option (Cs × Cs) :=
  if !nonWordPrev prev then none
  else
    match eatBareDoiOrg cs with
    | none => none
    | some r =>
      let r2 := eatRun isPySpace r
      match eatDoi49Slash r2 with
      | some (g2, rest) => some (g2, rest)
      | none => none

/-- Sub `(?i)\b(?:doi\.org/|dx\.doi\.org/)(?!\s*10\.)\s*` → empty. -/
def subStray2 (prev : Option Char) (cs : Cs) : Option (Cs × Cs) :=
  if !nonWordPrev prev then none
  else
    match eatBareDoiOrg cs with
    | none => none
    | some r =>
      let rw := eatRun isPySpace r
      if startsWithCs (csOf "10.") rw then none else some ([], rw)

/-- The `_doi_colon_fix` test `\s*(?:https?://)?(?:doi\.org/)?10\.` (I). -/
def doiIshQ (t : Cs) : Bool :=
  let r0 := eatRun isPySpace t
  let r1 := match eatHttpProto r0 with
            | some x => x
            | none => r0
  let r2 := match eatStrCI (csOf "doi.org/") r1 with
            | some x => x
            | none => r1
  (eatStrCI (csOf "10.") r2).isSome

/-- Sub `(?i)\bdoi:\s*([^\s\)\]\,;]+)?` with `_doi_colon_fix`. -/
def subStray3 (prev : Option Char) (cs : Cs) : Option (Cs × Cs) :=
  if !nonWordPrev prev then none
  else
    match eatStrCI (csOf "doi:") cs with
    | none => none
    | some r1 =>
      let r2 := eatRun isPySpace r1
      let (g1, r3) := spanRun clsA r2
      if g1.isEmpty then some ([], r2)
      else some ((if doiIshQ g1 then g1.filter nonWs else g1), r3)

/-- Embeds `_remove_stray_doi_prefixes`. -/
def removeStrayDoiPrefs (s : Cs) : Cs :=
  tidyWsPunct (runSub subStray3 (runSub subStray2 (runSub subStray1 s)))

/-- Sub `(?i)\b(with|for|in|via)\s*(?:,?\s*)?(?:and|&)\s+` → `\1 `. -/
def subDang1 (prev : Option Char) (cs : Cs) : Option (Cs × Cs) :=
  if !nonWordPrev prev then none
  else
    let kwTry := fun (kw : String) =>
      match eatStrCI (csOf kw) cs with
      | none => none
      | some r1 =>
        let g1 := cs.take (cs.length - r1.length)
        let r2 := eatRun isPySpace r1
        let r3 := match r2 with
                  | ',' :: t => eatRun isPySpace t
                  | _ => r2
        let conj := match eatStrCI (csOf "and") r3 with
                    | some x => some x
                    | none => eatCh (fun c => c == '&') r3
        match conj with
        | none => none
        | some r4 =>
          let (ws, r5) := spanRun isPySpace r4
          if ws.isEmpty then none else some (g1 ++ [' '], r5)
    match kwTry "with" with
    | some res => some res
    | none =>
      match kwTry "for" with
      | some res => some res
      | none =>
        match kwTry "in" with
        | some res => some res
        | none => kwTry "via"

/-- Sub `\s+\band\b\s+(?=[\.,;:])` → a single space (case-sensitive
`and`; the word boundaries always hold between whitespace and letters). -/
def subDang2 (_ : Option Char) (cs : Cs) : Option (Cs × Cs) :=
  let (ws1, r1) := spanRun isPySpace cs
  if ws1.isEmpty then none
  else
    match eatStr (csOf "and") r1 with
    | none => none
    | some r2 =>
      let (ws2, r3) := spanRun isPySpace r2
      if ws2.isEmpty then none
      else
        match r3 with
        | c :: _ =>
          if c == '.' || c == ',' || c == ';' || c == ':' then some ([' '], r3)
          else none
        | [] => none

/-- Embeds `_cleanup_dangling_after_removal`. -/
def cleanupDangling (s : Cs) : Cs :=
  tidyWsPunct (runSub subDang2 (runSub subDang1 s))

/-- The canonical URL tail appended by `move_doi_to_end`:
`' '.join(f'https://doi.org/{cid}' for cid in doi_ids)`. -/
def canonicalDoiUrls (ids : List Cs) : Cs :=
  List.intercalate [' '] (ids.map (fun cid => csOf "https://doi.org/" ++ cid))

/-- The cleaned body text of `move_doi_to_end` (span removal followed by
the cleanup chain of lines 685-709). -/
def moveCleanedBody (ref0 : Cs) : Cs :=
  let text := moveText (doiColonCollapse ref0)
  let ids := extract_doi_ids_cs text
  let merged := mergeSpans (sortSpans (dedupePairs (collectSpans text ids)))
  let nt := removeSpans text merged
  let nt := runSub subP1 nt
  let nt := stripC nt
  let nt := wsCollapse nt
  let nt := rstripSet ['.'] nt
  let nt := removeStrayDoiPrefs nt
  cleanupDangling nt

/-- Embeds `move_doi_to_end` on character lists (`if not doi_ids: return ref`,
otherwise the cleaned body with the canonical URL tail appended). -/
def move_doi_to_end_cs (ref0 : Cs) : Cs :=
  let ids := moveDoiIds ref0
  if ids.isEmpty then doiColonCollapse ref0
  else
    let nt := moveCleanedBody ref0
    stripC (if nt.isEmpty then canonicalDoiUrls ids
            else nt ++ csOf ". " ++ canonicalDoiUrls ids)

/-- Embeds `move_doi_to_end`. -/
def move_doi_to_end (s : String) : String := strOf (move_doi_to_end_cs (csOf s))

/-- The DoiId form stated by the specification: `10.<4-9 digits>/<suffix>`
(a comparison definition following the spec's words, to be diffed against
the code's validation, which accepts 2-9 digits). -/
def specDoiForm4to9 (s : String) : Bool :=
  match csOf s with
  | '1' :: '0' :: '.' :: r =>
    let (ds, r2) := spanRun isDigitC r
    if ds.length < 4 || 9 < ds.length then false
    else
      match r2 with
      | '/' :: r3 => !r3.isEmpty
      | _ => false
  | _ => false

/-! ### Supporting lemmas -/

set_option maxHeartbeats 4000000

set_option maxRecDepth 100000

instance : DecidableEq (Except String String) := fun a b =>
  match a, b with
  | Except.ok x, Except.ok y =>
    if h : x = y then isTrue (by rw [h]) else isFalse (by simp [h])
  | Except.error x, Except.error y =>
    if h : x = y then isTrue (by rw [h]) else isFalse (by simp [h])
  | Except.ok _, Except.error _ => isFalse (by simp)
  | Except.error _, Except.ok _ => isFalse (by simp)

theorem findLineIdx_eq_none (p : String → Bool) (ls : List String)
    (h : ls.all (fun l => !p l) = true) : ∀ i, findLineIdx p i ls = none := by
  induction ls with
  | nil => intro i; rfl
  | cons a t ih =>
    intro i
    simp only [List.all_cons, Bool.and_eq_true, Bool.not_eq_eq_eq_not, Bool.not_true] at h
    simp only [findLineIdx, h.1, Bool.false_eq_true, if_false]
    exact ih (by simpa using h.2) (i + 1)

theorem not_mem_of_any_beq_false {l : List Cs} {a : Cs}
    (h : l.any (fun s => s == a) = false) : a ∉ l := by
  intro hm
  have ht : l.any (fun s => s == a) = true := List.any_eq_true.mpr ⟨a, hm, by simp⟩
  rw [h] at ht
  exact Bool.false_ne_true ht

theorem dedupeIdsGo_nodup :
    ∀ (l acc : List Cs), acc.Nodup → (dedupeIdsGo acc l).Nodup := by
  intro l
  induction l with
  | nil =>
    intro acc h
    simpa [dedupeIdsGo] using List.nodup_reverse.mpr h
  | cons c t ih =>
    intro acc h
    simp only [dedupeIdsGo]
    split
    · exact ih acc h
    · next hcond =>
      apply ih
      rw [List.nodup_cons]
      refine ⟨?_, h⟩
      apply not_mem_of_any_beq_false
      revert hcond
      cases hany : acc.any (fun s => s == bracketPeel (stripC c)) <;> simp

theorem extract_doi_ids_cs_nodup (t : Cs) : (extract_doi_ids_cs t).Nodup := by
  cases t with
  | nil => exact List.nodup_nil
  | cons c r =>
    have h0 : (dedupedDoiCandidates (c :: r)).Nodup :=
      dedupeIdsGo_nodup _ [] List.nodup_nil
    exact (h0.filter _).filter _

theorem extract_doi_ids_cs_sublist (t : Cs) :
    (extract_doi_ids_cs t).Sublist (dedupedDoiCandidates t) := by
  cases t with
  | nil => exact List.nil_sublist _
  | cons c r => exact (List.filter_sublist _).trans (List.filter_sublist _)

theorem joinLoop_of_fixed (fuel : Nat) (ls : List String)
    (h : one_pass_apply ls = ls) : joinLoop fuel ls = ls := by
  cases fuel with
  | zero => rfl
  | succ n =>
    simp only [joinLoop, h]
    simp

theorem nonyearLoop_of_fixed (fuel : Nat) (ls : List String)
    (h : append_nonyear_pass ls = ls) : nonyearLoop fuel ls = ls := by
  cases fuel with
  | zero => rfl
  | succ n =>
    simp only [nonyearLoop, h]
    simp

/-! ### Concrete documents for the numbered-style claims -/

def c4cexDoc : List String :=
  ["[1] A", "[2] A", "[3] A", "[4] A", "[5] A", "[6] A", "[7] A", "[8] A",
   "[9] A", "[10] A", "[11] A", "[12] A", "[13] A", "[14] A", "[15] A",
   "(1) B", "(2) B", "(3) B", "(4) B", "(5) B", "(6) B", "(7) B", "(8) B",
   "(9) B", "(10) B", "(11) B", "(12) B", "(13) B", "(14) B", "(15) B", "(16) B"]

def c4doc20 : List String :=
  ["[1] Author a.", "[2] Author b.", "[3] Author c.", "[4] Author d.",
   "[5] Author e.", "[6] Author f.", "[7] Author g.", "[8] Author h.",
   "[9] Author i.", "[10] Author j.", "[11] Author k.", "[12] Author l.",
   "[13] Author m.", "[14] Author n.", "[15] Author o.", "[16] Author p.",
   "[17] Author q.", "[18] Author r.", "[19] Author s.", "[20] Author t."]

def c4doc20Stripped : List String :=
  ["Author a.", "Author b.", "Author c.", "Author d.", "Author e.",
   "Author f.", "Author g.", "Author h.", "Author i.", "Author j.",
   "Author k.", "Author l.", "Author m.", "Author n.", "Author o.",
   "Author p.", "Author q.", "Author r.", "Author s.", "Author t."]

def c4bareDoc : List String :=
  ["1. X a", "2. X b", "3. X c", "4. X d", "5. X e", "6. X f", "7. X g",
   "8. X h", "9. X i", "10. X j", "11. X k", "12. X l", "13. X m", "14. X n",
   "15. X o", "16. X p", "17. X q", "18. X r", "19. X s", "20. X t"]

/-! ### Claim theorems -/

/-- C1: the claim states that a line matching a government-report marker
(Prop./SOU/SFS/Ds) is never concatenated onto the preceding fragment by
any segmentation pass.  The code's own comment (doiref.py lines 663-667)
asserts this exception "applies across all join rules below", but the
single-token join pass (lines 707-747) attaches ANY whitespace-free line
to the previous one without consulting `starts_with_prop_or_sou`.  The
line `SOU:2000:11` matches `sou_start_re` (the colon form is accepted by
`[:\s]+`) and is a single token, so the pass merges it into the preceding
fragment — the code contradicts its own documentation (code bug). -/
theorem c1_single_token_pass_merges_gov_marker :
    starts_with_prop_or_sou "SOU:2000:11" = true
    ∧ joinShortSingleToken 10 ["Regeringskansliet rapport.", "SOU:2000:11"]
        = ["Regeringskansliet rapport. SOU:2000:11"] := by
  constructor
  · decide
  · decide

/-- C2: `move_doi_to_end` appends, at the end of the fragment, exactly one
canonical `https://doi.org/<id>` URL per distinct validated identifier in
first-encounter order (the identifier list is deduplicated, and the output
is the cleaned body followed by the joined canonical URLs), and the
spec's round-trip example — an identifier wrapped across a hyphen —
normalizes to exactly one trailing canonical URL with no duplicate and no
residual inline occurrence. -/
theorem c2_move_doi_canonical :
    (∀ ref : Cs, moveDoiIds ref ≠ [] →
      (moveDoiIds ref).Nodup ∧
      (move_doi_to_end_cs ref
          = stripC (moveCleanedBody ref ++ csOf ". " ++ canonicalDoiUrls (moveDoiIds ref))
        ∨ move_doi_to_end_cs ref = stripC (canonicalDoiUrls (moveDoiIds ref))))
    ∧ move_doi_to_end "See study. 10.1234/abcd.efgh- \n 2020 for detail."
        = "See study. for detail. https://doi.org/10.1234/abcd.efgh-2020" := by
  constructor
  · intro ref h
    refine ⟨?_, ?_⟩
    · simp only [moveDoiIds]
      exact extract_doi_ids_cs_nodup _
    · cases hids : moveDoiIds ref with
      | nil => exact absurd hids h
      | cons a as =>
        simp only [move_doi_to_end_cs, hids, List.isEmpty_cons, Bool.false_eq_true,
          if_false]
        cases hb : (moveCleanedBody ref).isEmpty with
        | true =>
          right
          simp
        | false =>
          left
          simp
  · decide

/-- Witness for C2: the universal conjunct applied at the round-trip
input, whose identifier list is nonempty. -/
theorem c2_move_doi_canonical_witness :
    moveDoiIds (csOf "See study. 10.1234/abcd.efgh- \n 2020 for detail.") ≠ []
    ∧ ((moveDoiIds (csOf "See study. 10.1234/abcd.efgh- \n 2020 for detail.")).Nodup
       ∧ (move_doi_to_end_cs (csOf "See study. 10.1234/abcd.efgh- \n 2020 for detail.")
            = stripC (moveCleanedBody (csOf "See study. 10.1234/abcd.efgh- \n 2020 for detail.")
                ++ csOf ". "
                ++ canonicalDoiUrls (moveDoiIds (csOf "See study. 10.1234/abcd.efgh- \n 2020 for detail.")))
          ∨ move_doi_to_end_cs (csOf "See study. 10.1234/abcd.efgh- \n 2020 for detail.")
            = stripC (canonicalDoiUrls (moveDoiIds (csOf "See study. 10.1234/abcd.efgh- \n 2020 for detail."))))) :=
  ⟨by decide, c2_move_doi_canonical.1 (csOf "See study. 10.1234/abcd.efgh- \n 2020 for detail.") (by decide)⟩

/-- C3 counterexample: the claim states the pipeline aborts with a
missing-heading error when `require_heading` is true and no heading line
exists.  `extract_references_section` does raise the error, but
`load_and_preprocess` catches it and processes the full text, so the
pipeline produces output instead of aborting. -/
theorem c3_counterexample :
    extract_references_section "Intro text.\nNo heading here." false true false
      = Except.error "REFERENCES heading not found"
    ∧ lpReferencesText "Intro text.\nNo heading here." false false true
      = "Intro text.\nNo heading here." := by
  constructor
  · decide
  · decide

/-- C3 (amended): on input without a references-heading line,
`extract_references_section` returns the missing-heading error when a
heading is required and the entire text when not; `load_and_preprocess`
catches the error and treats the full text as the section, so the
pipeline does not abort. -/
theorem c3_amended (fullText : String) (u a : Bool)
    (h : (textLines (ffToNl fullText)).all (fun l => !headingLineMatch l) = true) :
    extract_references_section fullText u true a
      = Except.error "REFERENCES heading not found"
    ∧ extract_references_section fullText u false a = Except.ok (ffToNl fullText)
    ∧ lpReferencesText fullText u a true = fullText := by
  have hidx : findLineIdx headingLineMatch 0 (textLines (ffToNl fullText)) = none :=
    findLineIdx_eq_none _ _ h 0
  have h1 : extract_references_section fullText u true a
      = Except.error "REFERENCES heading not found" := by
    simp only [extract_references_section, hidx, if_true]
  refine ⟨h1, ?_, ?_⟩
  · simp only [extract_references_section, hidx, Bool.false_eq_true, if_false]
  · simp only [lpReferencesText, h1]

/-- Witness for C3: the amended statement at a concrete headingless text. -/
theorem c3_amended_witness :
    extract_references_section "Intro text.\nNo heading here." false true false
      = Except.error "REFERENCES heading not found"
    ∧ extract_references_section "Intro text.\nNo heading here." false false false
      = Except.ok (ffToNl "Intro text.\nNo heading here.")
    ∧ lpReferencesText "Intro text.\nNo heading here." false false true
      = "Intro text.\nNo heading here." :=
  c3_amended "Intro text.\nNo heading here." false false (by decide)

/-- C4 counterexample: the claim states the selected numbered style is the
one with the highest count above its threshold.  On a document with 15
bracket-numbered and 16 parenthesized-numbered lines — both above the
threshold 15, with paren strictly higher — the code selects bracket
(fixed priority), not the highest-count style. -/
theorem c4_counterexample :
    detectNumberedStyle c4cexDoc false = some NumStyle.bracket
    ∧ bracketCount c4cexDoc = 15
    ∧ parenCount c4cexDoc = 16
    ∧ bracketCount c4cexDoc < parenCount c4cexDoc := by
  refine ⟨by decide, by decide, by decide, by decide⟩

/-- C4 (amended): selection follows the fixed priority bracket (≥ 15),
then paren (≥ 15), then bare (≥ 10, or ≥ 30 with until-eof), not the
highest count.  The concrete scenario holds: a document of 20 `[n]` lines
(and no paren/bare numbering) is classified as bracket style, and with
number stripping every output line of the numbered join pass has its
`[n]` prefix removed. -/
theorem c4_amended :
    detectNumberedStyle c4doc20 false = some NumStyle.bracket
    ∧ parenCount c4doc20 = 0 ∧ bareCount c4doc20 = 0
    ∧ (oneNumberedLoop eatBracketPat 10 c4doc20).map stripBracketNum = c4doc20Stripped
    ∧ ((oneNumberedLoop eatBracketPat 10 c4doc20).map stripBracketNum).all
        (fun r => !reBracketMatch r) = true
    ∧ detectNumberedStyle c4bareDoc false = some NumStyle.bare
    ∧ detectNumberedStyle c4bareDoc true = none := by
  refine ⟨by decide, by decide, by decide, by decide, by decide, by decide, by decide⟩

/-- C5 counterexample: the claim states that a numbered line with no
trailing content whose number is one greater than the previous START's
number is treated as a continuation stub with its number dropped.  In the
code the sequential stub STARTS a new reference and keeps its number:
`["[1] Smith, Title.", "[2]", "Jones, Other."]` yields two references,
the second beginning with the stub `[2]`, not the single merged
reference the claim implies. -/
theorem c5_counterexample :
    one_numbered_pass eatBracketPat ["[1] Smith, Title.", "[2]", "Jones, Other."]
      = ["[1] Smith, Title.", "[2] Jones, Other."]
    ∧ one_numbered_pass eatBracketPat ["[1] Smith, Title.", "[2]", "Jones, Other."]
      ≠ ["[1] Smith, Title. Jones, Other."] := by
  constructor
  · decide
  · decide

/-- C5 (amended): in `one_numbered_pass`, a contentless numbered stub
whose number is exactly one greater than the previous START's number
begins a NEW reference (its number is retained and subsequent lines join
it); a stub whose number is NOT sequential is merged into the previous
fragment with its number kept in the text. -/
theorem c5_amended :
    one_numbered_pass eatBracketPat ["[1] Smith, Title.", "[2]", "Jones, Other."]
      = ["[1] Smith, Title.", "[2] Jones, Other."]
    ∧ one_numbered_pass eatBracketPat ["[1] Smith, Title.", "[7]", "Jones, Other."]
      = ["[1] Smith, Title. [7] Jones, Other."] := by
  constructor
  · decide
  · decide

/-- C6 counterexample: the claim states a line ending in a slash is joined
with the following line unless that line looks like an author heading.
The continuation set `hyphen_chars` does not contain `/`, so a line
ending in `/` is never joined even though the next line is not
author-like (the slash guard in the code is unreachable). -/
theorem c6_counterexample :
    hyphen_join_fixed_point ["https://doi.org/", "10.1234/abcd more"]
      = ["https://doi.org/", "10.1234/abcd more"]
    ∧ author_start_like "10.1234/abcd more" = false := by
  constructor
  · decide
  · decide

/-- C6 (amended): the hyphenation joiner concatenates a line with the
following non-blank line, without inserting a space, when the line ends
in a hyphen-like character (hyphen, soft hyphen, dash code points, minus
sign, or underscore) — but never for a trailing slash, whose author-
heading guard is unreachable; it iterates to a fixed point under the
default cap of 8. -/
theorem c6_amended :
    hyphen_join_fixed_point ["exam-", "ple text"] = ["exam-ple text"]
    ∧ hyphen_join_fixed_point ["foo_", "bar"] = ["foo_bar"]
    ∧ hyphen_join_fixed_point ["x–", "y"] = ["x–y"]
    ∧ hyphen_join_fixed_point ["a­", "b"] = ["a­b"]
    ∧ hyphen_join_fixed_point ["a-", "b-", "c-", "d"] = ["a-b-c-d"]
    ∧ hyphen_join_fixed_point ["https://doi.org/", "10.1234/abcd more"]
        = ["https://doi.org/", "10.1234/abcd more"] := by
  refine ⟨by decide, by decide, by decide, by decide, by decide, by decide⟩

/-- C7 counterexample: the claim states a fragment ending in the word
"and" (or its local equivalent) is merged with the following line.
`line_ends_with_conjunction` is deliberately strict — it only accepts a
literal trailing ampersand — so the "and"-ending input is left unmerged. -/
theorem c7_counterexample :
    mergedAmpPass ["Smith, J., and", "Doe, A. (2020) Title of paper. Journal, 5, 1-10."]
      = ["Smith, J., and", "Doe, A. (2020) Title of paper. Journal, 5, 1-10."]
    ∧ mergedAmpPass ["Smith, J., and", "Doe, A. (2020) Title of paper. Journal, 5, 1-10."]
      ≠ ["Smith, J., and Doe, A. (2020) Title of paper. Journal, 5, 1-10."] := by
  constructor
  · decide
  · decide

/-- C7 (amended): only a literal trailing ampersand triggers the
conjunction continuation (lines ending in "and"/"och" are not merged by
this pass); with a trailing `&` the following non-blank line is merged
unless it matches a government-report marker, and the spec's scenario
produces the single merged reference. -/
theorem c7_amended :
    mergedAmpPass ["Smith, J., &", "Doe, A. (2020) Title of paper. Journal, 5, 1-10."]
      = ["Smith, J., & Doe, A. (2020) Title of paper. Journal, 5, 1-10."]
    ∧ mergedAmpPass ["Smith, J., and", "Doe, A. (2020) Title of paper. Journal, 5, 1-10."]
      = ["Smith, J., and", "Doe, A. (2020) Title of paper. Journal, 5, 1-10."]
    ∧ mergedAmpPass ["Smith, J., &", "SOU 2000:11 Om nagot."]
      = ["Smith, J., &", "SOU 2000:11 Om nagot."]
    ∧ line_ends_with_conjunction "Smith, J., &" = true
    ∧ line_ends_with_conjunction "Smith, J., and" = false := by
  refine ⟨by decide, by decide, by decide, by decide, by decide⟩

/-- C8 counterexample: the claim states every extracted identifier matches
`10.<4-9 digits>/<suffix>`.  The validation regex accepts 2-9 digits, so
`doi:10.99/ab` yields the identifier `10.99/ab`, whose registrant part
has only two digits. -/
theorem c8_counterexample :
    extract_doi_ids "doi:10.99/ab" = ["10.99/ab"]
    ∧ specDoiForm4to9 "10.99/ab" = false := by
  constructor
  · decide
  · decide

/-- C8 (amended): every identifier returned by `extract_doi_ids` satisfies
the code's validation — the form `10.<2-9 digits>/<suffix>` with no
trailing hyphen, underscore or period (`validDoiQ`); the list is
deduplicated in first-encounter order (it is duplicate-free and a
sublist of the deduplicated candidate stream); and no returned id is a
strict substring of a different id in the validated list. -/
theorem c8_amended (t : Cs) :
    (extract_doi_ids_cs t).Nodup
    ∧ (extract_doi_ids_cs t).Sublist (dedupedDoiCandidates t)
    ∧ ∀ cid ∈ extract_doi_ids_cs t,
        validDoiQ cid = true
        ∧ ∀ other ∈ validDoiIds t, other ≠ cid → containsSub cid other = false := by
  refine ⟨extract_doi_ids_cs_nodup t, extract_doi_ids_cs_sublist t, ?_⟩
  intro cid hmem
  cases t with
  | nil => simp only [extract_doi_ids_cs, List.not_mem_nil] at hmem
  | cons c r =>
    simp only [extract_doi_ids_cs] at hmem
    have h1 := List.mem_filter.mp hmem
    have h2 := List.mem_filter.mp h1.1
    refine ⟨h2.2, ?_⟩
    intro other hother hne
    have hfalse : (validDoiIds (c :: r)).any
        (fun o => o != cid && containsSub cid o) = false := by
      have := h1.2
      revert this
      cases hany : (validDoiIds (c :: r)).any (fun o => o != cid && containsSub cid o) <;> simp
    by_contra hcs
    have hcs' : containsSub cid other = true := by
      revert hcs
      cases containsSub cid other <;> simp
    have htrue : (validDoiIds (c :: r)).any
        (fun o => o != cid && containsSub cid o) = true :=
      List.any_eq_true.mpr ⟨other, hother, by simp [hcs', bne_iff_ne, hne]⟩
    rw [hfalse] at htrue
    exact Bool.false_ne_true htrue

/-- Witness for C8: the amended statement applied to a concrete text and
a concrete member of its extracted identifier list. -/
theorem c8_amended_witness :
    validDoiQ (csOf "10.1234/abcd") = true
    ∧ (extract_doi_ids_cs (csOf "see 10.1234/abcd here")).Nodup :=
  ⟨((c8_amended (csOf "see 10.1234/abcd here")).2.2 (csOf "10.1234/abcd") (by decide)).1,
   (c8_amended (csOf "see 10.1234/abcd here")).1⟩

/-- C9 counterexample: the claim states the full fixed-point join pass is
idempotent on its own output.  On `["Smith, Alpha,", "Beta,",
"Jones (2020) title."]` the first application converges with the merged
author line `"Smith, Alpha, Beta,"` left separate (the append-nonyear
pass created it after the main join had already converged); a second
application merges it with the following year line, changing the output. -/
theorem c9_counterexample :
    fullJoin ["Smith, Alpha,", "Beta,", "Jones (2020) title."]
      = ["Smith, Alpha, Beta,", "Jones (2020) title."]
    ∧ fullJoin (fullJoin ["Smith, Alpha,", "Beta,", "Jones (2020) title."])
      = ["Smith, Alpha, Beta, Jones (2020) title."]
    ∧ fullJoin (fullJoin ["Smith, Alpha,", "Beta,", "Jones (2020) title."])
      ≠ fullJoin ["Smith, Alpha,", "Beta,", "Jones (2020) title."] := by
  refine ⟨by decide, by decide, by decide⟩

/-- C9 (amended): each iterated join pass individually is stable on any
buffer that is already a fixed point of its single pass (in particular on
its own output whenever it converged within the cap); the composed full
join pass — main join loop followed by append-nonyear loop — is not
idempotent in general, because the append-nonyear pass can assemble a new
author-like line that the main join pass would merge on a second run. -/
theorem c9_amended (ls : List String) :
    (one_pass_apply ls = ls → joinLoop 10 ls = ls)
    ∧ (append_nonyear_pass ls = ls → nonyearLoop 10 ls = ls) :=
  ⟨joinLoop_of_fixed 10 ls, nonyearLoop_of_fixed 10 ls⟩

/-- Witness for C9: the amended statement applied to a single-line buffer
that is a fixed point of both passes. -/
theorem c9_amended_witness :
    joinLoop 10 ["Jones (2020) title."] = ["Jones (2020) title."]
    ∧ nonyearLoop 10 ["Jones (2020) title."] = ["Jones (2020) title."] :=
  ⟨(c9_amended ["Jones (2020) title."]).1 (by decide),
   (c9_amended ["Jones (2020) title."]).2 (by decide)⟩

/-- C10 counterexample: the claim states that when no valid DOI is found
the fragment is returned exactly unchanged.  The early `doi:` whitespace
collapse is applied to `ref` itself before the no-DOI early return, so
`"See doi: nothing here."` comes back altered. -/
theorem c10_counterexample :
    move_doi_to_end "See doi: nothing here." = "See doi:nothing here."
    ∧ move_doi_to_end "See doi: nothing here." ≠ "See doi: nothing here." := by
  constructor
  · decide
  · decide

/-- C10 (amended): when the extraction pipeline finds no valid DOI,
`move_doi_to_end` returns the input with only the early `doi:`-prefix
whitespace-collapse rewrites applied (`doiColonCollapse`); none of the
later internal normalizations are visible. -/
theorem c10_amended (ref : Cs) (h : moveDoiIds ref = []) :
    move_doi_to_end_cs ref = doiColonCollapse ref := by
  simp only [move_doi_to_end_cs, h, List.isEmpty_nil, if_true]

/-- Witness for C10: the amended statement at the counterexample input,
whose identifier list is empty. -/
theorem c10_amended_witness :
    moveDoiIds (csOf "See doi: nothing here.") = []
    ∧ move_doi_to_end_cs (csOf "See doi: nothing here.")
        = doiColonCollapse (csOf "See doi: nothing here.") :=
  ⟨by decide, c10_amended (csOf "See doi: nothing here.") (by decide)⟩

end Crx
